import Mathlib

/-!
# IoT / LTE echo-traffic drivers: configuration and flow report

A shallow embedding of the two ns-3 driver programs `code.cpp` (variant 1) and
`throughput_and_loss.cpp` (variant 2).

* `Time` is the simulator's integer tick count; both drivers select nanosecond
  resolution (`Time::SetResolution(Time::NS)`).
* C++ `double` values are modelled as IEEE 754 binary64 under the default
  rounding (to nearest, ties to even): `Dbl` has the finite values, both signed
  zeros, both infinities and NaN, and every operation rounds its exact result
  to 53 significant bits (`round53`).  The exponent range is not bounded: with
  64-bit counters and tick counts no operation of the report overflows or
  underflows.
* A C++ expression is evaluated with the usual arithmetic conversions
  (`CVal`): an integer division by zero is a fault, a `double` division never
  is.
* The simulator itself (LTE stack, queues, flow monitor) is not part of the
  programs; the drivers only configure it and print what it collected.  The
  collected statistics, the flow classifier and the stream formatting of a
  `double` are therefore inputs of the report.
-/

namespace IoT5GSim

/-! ## Simulated time -/

/-- Simulated time in ticks of one nanosecond (`Time::SetResolution(Time::NS)`). -/
abbrev Time := Int

/-- Number of ticks in one second at nanosecond resolution. -/
def ticksPerSecond : Nat := 1000000000

/-- `Seconds(x)` for a `double` literal `x`, idealised as a rational. -/
def Seconds (x : ℚ) : Time := ⌊x * ticksPerSecond⌋

/-- `MilliSeconds(n)` for an integer `n`. -/
def MilliSeconds (n : Int) : Time := n * 1000000

/-! ## IEEE 754 doubles -/

/-- Rounding of a rational to the nearest integer, ties to the even one. -/
def rne (m : ℚ) : ℤ :=
  if m - ⌊m⌋ < 1 / 2 then ⌊m⌋
  else if 1 / 2 < m - ⌊m⌋ then ⌊m⌋ + 1
  else if ⌊m⌋ % 2 = 0 then ⌊m⌋ else ⌊m⌋ + 1

/-- The unit in the last place of a binary64 number in the binade of `x`:
`2 ^ (e - 52)` where `2 ^ e ≤ |x| < 2 ^ (e + 1)`. -/
def ulp (x : ℚ) : ℚ := (2 : ℚ) ^ (Int.log 2 |x| - 52)

/-- The binary64 number nearest to `x` (ties to even): `x` rounded to 53
significant bits. -/
def round53 (x : ℚ) : ℚ := if x = 0 then 0 else (rne (x / ulp x) : ℚ) * ulp x

/-- A C++ `double`: a finite value (`fin 0` is `+0`), the negative zero, an
infinity, or NaN. -/
inductive Dbl where
  | fin (q : ℚ)
  | nzero
  | pinf
  | ninf
  | nan
  deriving DecidableEq

namespace Dbl

/-- The zero of the given sign. -/
def zero (neg : Bool) : Dbl := if neg then nzero else fin 0

/-- The infinity of the given sign. -/
def inf (neg : Bool) : Dbl := if neg then ninf else pinf

/-- The rational value of a finite double. -/
def toRat? : Dbl → Option ℚ
  | fin q => some q
  | nzero => some 0
  | _ => none

/-- Conversion of an unsigned integer to `double`. -/
def ofNat (n : Nat) : Dbl := fin (round53 n)

/-- IEEE multiplication: the sign of the result is the exclusive or of the
signs, zero times infinity is NaN. -/
def mul : Dbl → Dbl → Dbl
  | nan, _ => nan
  | _, nan => nan
  | fin a, fin b =>
    if a * b = 0 then zero (xor (decide (a < 0)) (decide (b < 0))) else fin (round53 (a * b))
  | fin a, nzero => zero (!decide (a < 0))
  | nzero, fin b => zero (!decide (b < 0))
  | nzero, nzero => fin 0
  | fin a, pinf => if a = 0 then nan else inf (decide (a < 0))
  | fin a, ninf => if a = 0 then nan else inf (!decide (a < 0))
  | pinf, fin b => if b = 0 then nan else inf (decide (b < 0))
  | ninf, fin b => if b = 0 then nan else inf (!decide (b < 0))
  | nzero, pinf => nan
  | nzero, ninf => nan
  | pinf, nzero => nan
  | ninf, nzero => nan
  | pinf, pinf => pinf
  | pinf, ninf => ninf
  | ninf, pinf => ninf
  | ninf, ninf => pinf

/-- IEEE subtraction: an exact difference of zero is `+0`, except that
`(-0) - (+0)` is `-0`; the difference of equal infinities is NaN. -/
def sub : Dbl → Dbl → Dbl
  | nan, _ => nan
  | _, nan => nan
  | fin a, fin b => if a - b = 0 then fin 0 else fin (round53 (a - b))
  | fin a, nzero => fin (round53 a)
  | nzero, fin b => if b = 0 then nzero else fin (round53 (-b))
  | nzero, nzero => fin 0
  | fin _, pinf => ninf
  | fin _, ninf => pinf
  | nzero, pinf => ninf
  | nzero, ninf => pinf
  | pinf, fin _ => pinf
  | pinf, nzero => pinf
  | ninf, fin _ => ninf
  | ninf, nzero => ninf
  | pinf, pinf => nan
  | ninf, ninf => nan
  | pinf, ninf => pinf
  | ninf, pinf => ninf

/-- IEEE division: the sign of the result is the exclusive or of the signs;
a non-zero value over zero is an infinity, zero over zero and infinity over
infinity are NaN.  No case traps. -/
def div : Dbl → Dbl → Dbl
  | nan, _ => nan
  | _, nan => nan
  | fin a, fin b =>
    if b = 0 then (if a = 0 then nan else inf (decide (a < 0)))
    else if a = 0 then zero (decide (b < 0))
    else fin (round53 (a / b))
  | fin a, nzero => if a = 0 then nan else inf (!decide (a < 0))
  | nzero, fin b => if b = 0 then nan else zero (!decide (b < 0))
  | nzero, nzero => nan
  | fin a, pinf => zero (decide (a < 0))
  | fin a, ninf => zero (!decide (a < 0))
  | nzero, pinf => nzero
  | nzero, ninf => fin 0
  | pinf, fin b => inf (decide (b < 0))
  | pinf, nzero => ninf
  | ninf, fin b => inf (!decide (b < 0))
  | ninf, nzero => pinf
  | pinf, pinf => nan
  | pinf, ninf => nan
  | ninf, pinf => nan
  | ninf, ninf => nan

end Dbl

/-- `Time::GetSeconds()`: the double nearest to the tick count divided by the
number of ticks in a second. -/
def GetSeconds (t : Time) : Dbl := Dbl.fin (round53 ((t : ℚ) / ticksPerSecond))

/-- `y` approximates `x` with relative error at most `ε`. -/
def RelErr (ε y x : ℚ) : Prop := |y - x| ≤ ε * |x|

/-! ## C++ arithmetic on mixed operands -/

/-- The value of a C++ arithmetic expression of the report: a 64-bit unsigned
integer or a `double`. -/
inductive CVal where
  | u64 (n : Nat)
  | dbl (d : Dbl)
  deriving DecidableEq

/-- What stops the evaluation of an arithmetic expression. -/
inductive Fault where
  | integerDivisionByZero
  deriving DecidableEq

/-- The usual arithmetic conversion of an operand to `double`. -/
def CVal.toDouble : CVal → Dbl
  | CVal.u64 n => Dbl.ofNat n
  | CVal.dbl d => d

/-- C++ `*`: on two integers the product modulo `2 ^ 64`, otherwise the
`double` product of the converted operands. -/
def cmul : CVal → CVal → CVal
  | CVal.u64 a, CVal.u64 b => CVal.u64 ((a * b) % 18446744073709551616)
  | x, y => CVal.dbl (Dbl.mul x.toDouble y.toDouble)

/-- C++ `-`: on two integers the difference modulo `2 ^ 64`, otherwise the
`double` difference of the converted operands. -/
def csub : CVal → CVal → CVal
  | CVal.u64 a, CVal.u64 b =>
    CVal.u64 ((a + (18446744073709551616 - b % 18446744073709551616)) % 18446744073709551616)
  | x, y => CVal.dbl (Dbl.sub x.toDouble y.toDouble)

/-- C++ `/`: on two integers the quotient, a fault when the divisor is zero;
otherwise the `double` quotient of the converted operands, which never
faults. -/
def cdiv : CVal → CVal → Except Fault CVal
  | CVal.u64 a, CVal.u64 b =>
    if b = 0 then Except.error Fault.integerDivisionByZero else Except.ok (CVal.u64 (a / b))
  | x, y => Except.ok (CVal.dbl (Dbl.div x.toDouble y.toDouble))

/-! ## Stream output -/

/-- `operator<<` for an unsigned integer: its decimal digits. -/
def showNat (n : Nat) : List Char := Nat.toDigits 10 n

/-- Characters that `operator<<` can produce for a `double` under the default
stream flags: digits, the decimal point, the exponent marker and signs, and the
letters of `inf` and `nan`. -/
def isValueChar (c : Char) : Bool :=
  c.isDigit || c == '.' || c == 'e' || c == '+' || c == '-' ||
    c == 'i' || c == 'n' || c == 'f' || c == 'a'

/-- The stream formatting of a `double`, which belongs to the C++ library and
not to the drivers: any rendering that stays within `isValueChar`. -/
structure DoublePrinter where
  render : Dbl → List Char
  render_chars : ∀ x c, c ∈ render x → isValueChar c = true

/-- A text all of whose characters can occur in a rendered value. -/
def ValueText (v : List Char) : Prop := ∀ c ∈ v, isValueChar c = true

/-- An IPv4 address as its 32-bit value. -/
abbrev Ipv4Address := Nat

/-- The address with the four given octets, as `Ipv4Address("a.b.c.d")`. -/
def Ipv4Address.ofOctets (a b c d : Nat) : Ipv4Address :=
  a * 16777216 + b * 65536 + c * 256 + d

/-- `operator<<` for an `Ipv4Address`: the dotted-quad form. -/
def Ipv4Address.print (a : Ipv4Address) : List Char :=
  showNat ((a / 16777216) % 256) ++ '.' :: showNat ((a / 65536) % 256) ++
    '.' :: showNat ((a / 256) % 256) ++ '.' :: showNat (a % 256)

/-- A sample `double` formatting: the special values by name, a finite value
by its sign and integral part. -/
def samplePrinter : DoublePrinter where
  render x :=
    match x with
    | Dbl.fin q => (if q < 0 then ['-'] else []) ++ showNat (q.num.natAbs / q.den)
    | Dbl.nzero => ['-', '0']
    | Dbl.pinf => ['i', 'n', 'f']
    | Dbl.ninf => ['-', 'i', 'n', 'f']
    | Dbl.nan => ['n', 'a', 'n']
  render_chars := by
    intro x c hc
    cases x with
    | fin q =>
      simp only [List.mem_append] at hc
      rcases hc with hc | hc
      · split_ifs at hc
        · simp only [List.mem_singleton] at hc
          subst hc
          decide
        · simp at hc
      · have hd : ∀ (fuel n : Nat) (ds : List Char), (∀ c ∈ ds, c.isDigit = true) →
            ∀ c ∈ Nat.toDigitsCore 10 fuel n ds, c.isDigit = true := by
          intro fuel
          induction fuel with
          | zero => intro n ds hds c hc; exact hds c (by simpa [Nat.toDigitsCore] using hc)
          | succ fuel ih =>
            intro n ds hds c hc
            have hds2 : ∀ c ∈ Nat.digitChar (n % 10) :: ds, c.isDigit = true := by
              intro c hc
              rcases List.mem_cons.mp hc with rfl | hc
              · have hlt : n % 10 < 10 := Nat.mod_lt _ (by decide)
                generalize n % 10 = d at hlt
                interval_cases d <;> decide
              · exact hds c hc
            simp only [Nat.toDigitsCore] at hc
            split at hc
            · exact hds2 c hc
            · exact ih _ _ hds2 c hc
        simp [isValueChar, hd _ _ [] (by simp) c hc]
    | nzero =>
      simp only [List.mem_cons, List.mem_singleton, List.not_mem_nil, or_false] at hc
      rcases hc with rfl | rfl <;> decide
    | pinf =>
      simp only [List.mem_cons, List.mem_singleton, List.not_mem_nil, or_false] at hc
      rcases hc with rfl | rfl | rfl <;> decide
    | ninf =>
      simp only [List.mem_cons, List.mem_singleton, List.not_mem_nil, or_false] at hc
      rcases hc with rfl | rfl | rfl | rfl <;> decide
    | nan =>
      simp only [List.mem_cons, List.mem_singleton, List.not_mem_nil, or_false] at hc
      rcases hc with rfl | rfl | rfl <;> decide

/-! ## Flow monitor data -/

/-- Flow identifier (`FlowId`, a 32-bit unsigned integer). -/
abbrev FlowId := Nat

/-- The fields of `FlowMonitor::FlowStats` that the report reads. -/
structure FlowStats where
  timeFirstTxPacket : Time
  timeLastRxPacket : Time
  delaySum : Time
  rxBytes : Nat
  txPackets : Nat
  rxPackets : Nat
  lostPackets : Nat
  deriving DecidableEq

/-- The fields of `Ipv4FlowClassifier::FiveTuple`. -/
structure FiveTuple where
  sourceAddress : Ipv4Address
  destinationAddress : Ipv4Address
  protocol : Nat
  sourcePort : Nat
  destinationPort : Nat
  deriving DecidableEq

/-- A `std::map<FlowId, FlowStats>`: its entries in iteration order, which is
strictly increasing in the key. -/
structure FlowStatsMap where
  entries : List (FlowId × FlowStats)
  ordered : entries.Pairwise (fun a b => a.1 < b.1)

/-- Insertion of a key into the entry list of a `std::map`, keeping an existing
entry for that key (`std::map::insert`). -/
def insertEntry (k : FlowId) (v : FlowStats) :
    List (FlowId × FlowStats) → List (FlowId × FlowStats)
  | [] => [(k, v)]
  | e :: es =>
    if k < e.1 then (k, v) :: e :: es
    else if k = e.1 then e :: es
    else e :: insertEntry k v es

/-- The empty statistics map. -/
def FlowStatsMap.empty : FlowStatsMap := ⟨[], List.Pairwise.nil⟩

/-- Insertion into a statistics map; the iteration order stays strictly
increasing in the key. -/
def FlowStatsMap.insert (m : FlowStatsMap) (k : FlowId) (v : FlowStats) : FlowStatsMap where
  entries := insertEntry k v m.entries
  ordered := by
    have key : ∀ es : List (FlowId × FlowStats), es.Pairwise (fun a b => a.1 < b.1) →
        (insertEntry k v es).Pairwise (fun a b => a.1 < b.1) ∧
          ∀ x ∈ insertEntry k v es, x = (k, v) ∨ x ∈ es := by
      intro es
      induction es with
      | nil => intro _; simp [insertEntry]
      | cons e es ih =>
        intro h
        rw [List.pairwise_cons] at h
        obtain ⟨ih1, ih2⟩ := ih h.2
        simp only [insertEntry]
        split_ifs with h1 h2
        · refine ⟨List.pairwise_cons.mpr ⟨?_, List.pairwise_cons.mpr h⟩, ?_⟩
          · intro x hx
            rcases List.mem_cons.mp hx with rfl | hx
            · exact h1
            · exact lt_trans h1 (h.1 x hx)
          · intro x hx
            rcases List.mem_cons.mp hx with rfl | hx
            · exact Or.inl rfl
            · exact Or.inr hx
        · exact ⟨List.pairwise_cons.mpr h, fun x hx => Or.inr hx⟩
        · refine ⟨List.pairwise_cons.mpr ⟨?_, ih1⟩, ?_⟩
          · intro x hx
            rcases ih2 x hx with rfl | hx
            · exact lt_of_le_of_ne (not_lt.mp h1) (Ne.symm h2)
            · exact h.1 x hx
          · intro x hx
            rcases List.mem_cons.mp hx with rfl | hx
            · exact Or.inr (List.mem_cons_self _ _)
            · rcases ih2 x hx with h3 | h3
              · exact Or.inl h3
              · exact Or.inr (List.mem_cons_of_mem _ h3)
    exact (key m.entries m.ordered).1

/-- The statistics map holding the given flow records, whatever the order in
which the monitor first saw the flows. -/
def FlowStatsMap.ofList (l : List (FlowId × FlowStats)) : FlowStatsMap :=
  l.foldl (fun m kv => m.insert kv.1 kv.2) FlowStatsMap.empty

/-- Splitting of an output stream into its lines: every newline ends a line. -/
def splitLines : List Char → List (List Char)
  | [] => []
  | c :: s =>
    if c = '\n' then [] :: splitLines s
    else
      match splitLines s with
      | [] => [[c]]
      | l :: ls => (c :: l) :: ls

/-- Number of positions of `s` at which `pat` occurs. -/
def countOcc (pat : List Char) : List Char → Nat
  | [] => if pat.isPrefixOf [] then 1 else 0
  | c :: s => (if pat.isPrefixOf (c :: s) then 1 else 0) + countOcc pat s

/-- The labels of a flow line, in the order of the report. -/
def reportLabels : List (List Char) :=
  ["Flow ID:".toList, "Src:".toList, "Dst:".toList, "Tx Packets:".toList,
   "Rx Packets:".toList, "Lost Packets:".toList, "Delay Sum (s):".toList,
   "Throughput (bps):".toList]

/-! ## Topology and applications -/

/-- The nodes a driver refers to. -/
inductive NodeRef where
  | ue (i : Nat)
  | enb (i : Nat)
  | remoteHost
  | pgw
  deriving DecidableEq

/-- The address an echo client sends to. -/
inductive RemoteAddr where
  | remoteHostAddr
  | ueAddr (i : Nat)
  deriving DecidableEq

/-- An installed `UdpEchoServer` with its start and stop times. -/
structure EchoServerApp where
  node : NodeRef
  port : Nat
  start : Time
  stop : Time
  deriving DecidableEq

/-- An installed `UdpEchoClient` with its attributes and start and stop times. -/
structure EchoClientApp where
  node : NodeRef
  remote : RemoteAddr
  port : Nat
  maxPackets : Nat
  interval : Time
  packetSize : Nat
  start : Time
  stop : Time
  deriving DecidableEq

/-- An event put on the scheduler by `Simulator::Schedule`: its time and the
text it logs. -/
structure Notice where
  time : Time
  text : List Char
  deriving DecidableEq

/-- A root queue disc installed by a `TrafficControlHelper`. -/
structure QueueDisc where
  typeId : String
  maxSizePackets : Nat
  deriving DecidableEq

/-- Everything a driver sets up before `Simulator::Run`. -/
structure Scenario where
  resolutionTicksPerSecond : Nat
  logComponents : List String
  ueNodes : List NodeRef
  enbNodes : List NodeRef
  remoteHostContainer : List NodeRef
  internetStack : List NodeRef
  dataRateBps : Nat
  linkDelay : Time
  internetDevices : List NodeRef
  rootQueueDiscs : List (NodeRef × QueueDisc)
  p2pBase : Ipv4Address × Ipv4Address
  mobilityModel : String
  mobilityNodes : List NodeRef
  attachments : List (NodeRef × NodeRef)
  ueRoute : Ipv4Address × Ipv4Address × Nat
  echoPort : Nat
  serverApps : List EchoServerApp
  ueServerApps : List EchoServerApp
  clientApps : List EchoClientApp
  remoteClients : List EchoClientApp
  notices : List Notice
  pcapName : String
  stopTime : Time

/-- `PrintClientSending(clientId)`: the text of the console notice. -/
def PrintClientSending (clientId : Nat) : List Char :=
  "Client ".toList ++ showNat clientId ++ " sending data...".toList

/-- `DataRate("<n>Kbps")` in bits per second. -/
def DataRateKbps (n : Nat) : Nat := n * 1000

/-- Arithmetic on `uint32_t`. -/
def u32 (n : Nat) : Nat := n % 4294967296

/-- The external simulator run, as far as the report reads it: the statistics
the flow monitor collected for a scenario (`FlowMonitor::GetFlowStats`) and the
classifier lookup (`Ipv4FlowClassifier::FindFlow`). -/
structure Simulator where
  GetFlowStats : Scenario → FlowStatsMap
  FindFlow : Scenario → FlowId → FiveTuple

/-! ## Variant 1: `code.cpp` -/

namespace Code

/-- `ueNodes.Create(10)`. -/
def ueNodes : List NodeRef := (List.range 10).map NodeRef.ue

/-- `enbNodes.Create(1)`. -/
def enbNodes : List NodeRef := (List.range 1).map NodeRef.enb

/-- `remoteHostContainer.Create(1)`. -/
def remoteHostContainer : List NodeRef := [NodeRef.remoteHost]

/-- `uint16_t echoPort = 9`. -/
def echoPort : Nat := 9

/-- The echo server on the remote host. -/
def serverApps : List EchoServerApp :=
  [⟨NodeRef.remoteHost, echoPort, Seconds 1.0, Seconds 20.0⟩]

/-- The echo server installed on UE `i` by one pass of the server loop. -/
def ueEchoServer (i : Nat) : EchoServerApp :=
  ⟨NodeRef.ue i, echoPort, Seconds 1.0, Seconds 20.0⟩

/-- The loop installing an echo server on each UE. -/
def ueServerApps : List EchoServerApp :=
  (List.range ueNodes.length).map ueEchoServer

/-- The call `Simulator::Schedule(Seconds(2.0 + i), &PrintClientSending, i + 1)`
of pass `i` of the forward-client loop. -/
def schedule (i : Nat) : Notice :=
  ⟨Seconds (2.0 + (i : ℚ)), PrintClientSending (u32 (i + 1))⟩

/-- The notices scheduled by the forward-client loop. -/
def notices : List Notice :=
  (List.range ueNodes.length).map schedule

/-- The forward client installed on UE `i` by pass `i` of the forward-client loop. -/
def echoClient (i : Nat) : EchoClientApp :=
  ⟨NodeRef.ue i, RemoteAddr.remoteHostAddr, echoPort, 10, Seconds 1.0, 1024,
    Seconds (2.0 + (i : ℚ)), Seconds 20.0⟩

/-- The forward-client loop (UE to remote host). -/
def clientApps : List EchoClientApp :=
  (List.range ueNodes.length).map echoClient

/-- The reverse client for UE `i`, installed on the remote host by pass `i` of
the reverse-client loop. -/
def reverseClient (i : Nat) : EchoClientApp :=
  ⟨NodeRef.remoteHost, RemoteAddr.ueAddr i, echoPort, 10, Seconds 1.0, 1024,
    Seconds (3.0 + (i : ℚ)), Seconds 20.0⟩

/-- The reverse-client loop (remote host to UE). -/
def remoteClients : List EchoClientApp :=
  (List.range ueNodes.length).map reverseClient

/-- Everything `main` sets up before `Simulator::Run`. -/
def setup : Scenario where
  resolutionTicksPerSecond := ticksPerSecond
  logComponents := ["UdpEchoClientApplication", "UdpEchoServerApplication"]
  ueNodes := ueNodes
  enbNodes := enbNodes
  remoteHostContainer := remoteHostContainer
  internetStack := remoteHostContainer ++ ueNodes
  dataRateBps := DataRateKbps 256
  linkDelay := Seconds 0.01
  internetDevices := [NodeRef.pgw, NodeRef.remoteHost]
  rootQueueDiscs := []
  p2pBase := (Ipv4Address.ofOctets 1 0 0 0, Ipv4Address.ofOctets 255 0 0 0)
  mobilityModel := "ns3::ConstantPositionMobilityModel"
  mobilityNodes := enbNodes ++ ueNodes
  attachments := (List.range ueNodes.length).map fun (i : Nat) => (NodeRef.ue i, NodeRef.enb 0)
  ueRoute := (Ipv4Address.ofOctets 7 0 0 0, Ipv4Address.ofOctets 255 0 0 0, 1)
  echoPort := echoPort
  serverApps := serverApps
  ueServerApps := ueServerApps
  clientApps := clientApps
  remoteClients := remoteClients
  notices := notices
  pcapName := "iot-5g-sim"
  stopTime := Seconds 21.0

/-- The throughput expression of the report,
`rxBytes * 8.0 / (timeLastRxPacket.GetSeconds() - timeFirstTxPacket.GetSeconds())`,
evaluated on its operands: a `uint64_t` counter, a `double` literal and two
`double` results of `GetSeconds`. -/
def throughputExpr (st : FlowStats) : Except Fault CVal :=
  cdiv (cmul (CVal.u64 st.rxBytes) (CVal.dbl (Dbl.fin 8.0)))
    (csub (CVal.dbl (GetSeconds st.timeLastRxPacket))
      (CVal.dbl (GetSeconds st.timeFirstTxPacket)))

/-- The `double` that the throughput expression hands to `operator<<`.  The
evaluation returns a value on every flow (`throughputExpr_ok`), so the second
arm is never taken. -/
def throughput (st : FlowStats) : Dbl :=
  match throughputExpr st with
  | Except.ok v => v.toDouble
  | Except.error _ => Dbl.nan

/-- The text written for one flow, up to but excluding `std::endl`. -/
def flowLine (P : DoublePrinter) (t : FiveTuple) (id : FlowId) (st : FlowStats) :
    List Char :=
  "Flow ID: ".toList ++ showNat id
    ++ " Src: ".toList ++ Ipv4Address.print t.sourceAddress
    ++ " Dst: ".toList ++ Ipv4Address.print t.destinationAddress
    ++ " Tx Packets: ".toList ++ showNat st.txPackets
    ++ " Rx Packets: ".toList ++ showNat st.rxPackets
    ++ " Lost Packets: ".toList ++ showNat st.lostPackets
    ++ " Delay Sum (s): ".toList ++ P.render (GetSeconds st.delaySum)
    ++ " Throughput (bps): ".toList ++ P.render (throughput st)

/-- The report: the header, then the loop over the statistics map. -/
def report (P : DoublePrinter) (FindFlow : FlowId → FiveTuple) (stats : FlowStatsMap) :
    List Char :=
  stats.entries.foldl
    (fun out flow => out ++ flowLine P (FindFlow flow.1) flow.1 flow.2 ++ ['\n'])
    "\nFlow Monitor Results:\n".toList

/-- What `main` writes to `std::cout`: the report on what the run collected. -/
def main (P : DoublePrinter) (sim : Simulator) : List Char :=
  report P (sim.FindFlow setup) (sim.GetFlowStats setup)

end Code

/-! ## Variant 2: `throughput_and_loss.cpp` -/

namespace ThroughputAndLoss

/-- `ueNodes.Create(10)`. -/
def ueNodes : List NodeRef := (List.range 10).map NodeRef.ue

/-- `enbNodes.Create(1)`. -/
def enbNodes : List NodeRef := (List.range 1).map NodeRef.enb

/-- `remoteHostContainer.Create(1)`. -/
def remoteHostContainer : List NodeRef := [NodeRef.remoteHost]

/-- `p2ph.Install(pgw, remoteHost)`: one device on each end of the link. -/
def internetDevices : List NodeRef := [NodeRef.pgw, NodeRef.remoteHost]

/-- `tch.SetRootQueueDisc("ns3::PfifoFastQueueDisc", "MaxSize", StringValue("10p"))`. -/
def tch : QueueDisc := ⟨"ns3::PfifoFastQueueDisc", 10⟩

/-- `uint16_t echoPort = 9`. -/
def echoPort : Nat := 9

/-- The echo server on the remote host. -/
def serverApps : List EchoServerApp :=
  [⟨NodeRef.remoteHost, echoPort, Seconds 1.0, Seconds 20.0⟩]

/-- The echo server installed on UE `i` by one pass of the server loop. -/
def ueEchoServer (i : Nat) : EchoServerApp :=
  ⟨NodeRef.ue i, echoPort, Seconds 1.0, Seconds 20.0⟩

/-- The loop installing an echo server on each UE. -/
def ueServerApps : List EchoServerApp :=
  (List.range ueNodes.length).map ueEchoServer

/-- The call `Simulator::Schedule(Seconds(2.0 + i), &PrintClientSending, i + 1)`
of pass `i` of the forward-client loop. -/
def schedule (i : Nat) : Notice :=
  ⟨Seconds (2.0 + (i : ℚ)), PrintClientSending (u32 (i + 1))⟩

/-- The notices scheduled by the forward-client loop. -/
def notices : List Notice :=
  (List.range ueNodes.length).map schedule

/-- The forward client installed on UE `i` by pass `i` of the forward-client loop. -/
def echoClient (i : Nat) : EchoClientApp :=
  ⟨NodeRef.ue i, RemoteAddr.remoteHostAddr, echoPort, 100, Seconds 0.01, 2048,
    Seconds (2.0 + (i : ℚ)), Seconds 20.0⟩

/-- The forward-client loop (UE to remote host). -/
def clientApps : List EchoClientApp :=
  (List.range ueNodes.length).map echoClient

/-- The reverse client for UE `i`, installed on the remote host by pass `i` of
the reverse-client loop. -/
def reverseClient (i : Nat) : EchoClientApp :=
  ⟨NodeRef.remoteHost, RemoteAddr.ueAddr i, echoPort, 100, Seconds 0.01, 2048,
    Seconds (3.0 + (i : ℚ)), Seconds 20.0⟩

/-- The reverse-client loop (remote host to UE). -/
def remoteClients : List EchoClientApp :=
  (List.range ueNodes.length).map reverseClient

/-- Everything `main` sets up before `Simulator::Run`. -/
def setup : Scenario where
  resolutionTicksPerSecond := ticksPerSecond
  logComponents := ["UdpEchoClientApplication", "UdpEchoServerApplication"]
  ueNodes := ueNodes
  enbNodes := enbNodes
  remoteHostContainer := remoteHostContainer
  internetStack := remoteHostContainer ++ ueNodes
  dataRateBps := DataRateKbps 256
  linkDelay := MilliSeconds 10
  internetDevices := internetDevices
  rootQueueDiscs := internetDevices.map fun d => (d, tch)
  p2pBase := (Ipv4Address.ofOctets 1 0 0 0, Ipv4Address.ofOctets 255 0 0 0)
  mobilityModel := "ns3::ConstantPositionMobilityModel"
  mobilityNodes := enbNodes ++ ueNodes
  attachments := (List.range ueNodes.length).map fun (i : Nat) => (NodeRef.ue i, NodeRef.enb 0)
  ueRoute := (Ipv4Address.ofOctets 7 0 0 0, Ipv4Address.ofOctets 255 0 0 0, 1)
  echoPort := echoPort
  serverApps := serverApps
  ueServerApps := ueServerApps
  clientApps := clientApps
  remoteClients := remoteClients
  notices := notices
  pcapName := "iot-5g-sim"
  stopTime := Seconds 21.0

/-- The throughput expression of the report,
`rxBytes * 8.0 / (timeLastRxPacket.GetSeconds() - timeFirstTxPacket.GetSeconds())`,
evaluated on its operands: a `uint64_t` counter, a `double` literal and two
`double` results of `GetSeconds`. -/
def throughputExpr (st : FlowStats) : Except Fault CVal :=
  cdiv (cmul (CVal.u64 st.rxBytes) (CVal.dbl (Dbl.fin 8.0)))
    (csub (CVal.dbl (GetSeconds st.timeLastRxPacket))
      (CVal.dbl (GetSeconds st.timeFirstTxPacket)))

/-- The `double` that the throughput expression hands to `operator<<`.  The
evaluation returns a value on every flow (`throughputExpr_ok`), so the second
arm is never taken. -/
def throughput (st : FlowStats) : Dbl :=
  match throughputExpr st with
  | Except.ok v => v.toDouble
  | Except.error _ => Dbl.nan

/-- The text written for one flow, up to but excluding `std::endl`. -/
def flowLine (P : DoublePrinter) (t : FiveTuple) (id : FlowId) (st : FlowStats) :
    List Char :=
  "Flow ID: ".toList ++ showNat id
    ++ " Src: ".toList ++ Ipv4Address.print t.sourceAddress
    ++ " Dst: ".toList ++ Ipv4Address.print t.destinationAddress
    ++ " Tx Packets: ".toList ++ showNat st.txPackets
    ++ " Rx Packets: ".toList ++ showNat st.rxPackets
    ++ " Lost Packets: ".toList ++ showNat st.lostPackets
    ++ " Delay Sum (s): ".toList ++ P.render (GetSeconds st.delaySum)
    ++ " Throughput (bps): ".toList ++ P.render (throughput st)

/-- The report: the header, then the loop over the statistics map. -/
def report (P : DoublePrinter) (FindFlow : FlowId → FiveTuple) (stats : FlowStatsMap) :
    List Char :=
  stats.entries.foldl
    (fun out flow => out ++ flowLine P (FindFlow flow.1) flow.1 flow.2 ++ ['\n'])
    "\nFlow Monitor Results:\n".toList

/-- What `main` writes to `std::cout`: the report on what the run collected. -/
def main (P : DoublePrinter) (sim : Simulator) : List Char :=
  report P (sim.FindFlow setup) (sim.GetFlowStats setup)

end ThroughputAndLoss

/-! ## The parameterised scenario of the specification -/

/-- The parameter record `{maxPackets, intervalSec, packetSizeBytes, queueMaxPackets?}`. -/
structure ScenarioParams where
  maxPackets : Nat
  intervalSec : ℚ
  packetSizeBytes : Nat
  queueMaxPackets : Option Nat

/-- The echo clients of one direction as the specification describes them:
one per UE index `i`, with the per-variant parameters, starting at
`first + i` seconds and stopping at 20.0 s, all targeting echo port 9. -/
def specClients (p : ScenarioParams) (forward : Bool) (first : ℚ) : List EchoClientApp :=
  (List.range 10).map fun (i : Nat) =>
    { node := if forward then NodeRef.ue i else NodeRef.remoteHost
      remote := if forward then RemoteAddr.remoteHostAddr else RemoteAddr.ueAddr i
      port := 9
      maxPackets := p.maxPackets
      interval := Seconds p.intervalSec
      packetSize := p.packetSizeBytes
      start := Seconds (first + (i : ℚ))
      stop := Seconds 20 }

/-- The scenario as the specification describes it, for a parameter record:
ten UEs on one base station, a 256 Kbps / 10 ms point-to-point link with an
optional bounded FIFO on both of its devices, subnets 1.0.0.0/8 and 7.0.0.0/8,
echo responders over [1.0 s, 20.0 s], staggered clients in both directions,
one console notice per forward client, stop at 21.0 s. -/
def specScenario (p : ScenarioParams) : Scenario where
  resolutionTicksPerSecond := 1000000000
  logComponents := ["UdpEchoClientApplication", "UdpEchoServerApplication"]
  ueNodes := (List.range 10).map NodeRef.ue
  enbNodes := [NodeRef.enb 0]
  remoteHostContainer := [NodeRef.remoteHost]
  internetStack := NodeRef.remoteHost :: (List.range 10).map NodeRef.ue
  dataRateBps := 256000
  linkDelay := MilliSeconds 10
  internetDevices := [NodeRef.pgw, NodeRef.remoteHost]
  rootQueueDiscs :=
    match p.queueMaxPackets with
    | none => []
    | some n =>
      [(NodeRef.pgw, ⟨"ns3::PfifoFastQueueDisc", n⟩),
       (NodeRef.remoteHost, ⟨"ns3::PfifoFastQueueDisc", n⟩)]
  p2pBase := (Ipv4Address.ofOctets 1 0 0 0, Ipv4Address.ofOctets 255 0 0 0)
  mobilityModel := "ns3::ConstantPositionMobilityModel"
  mobilityNodes := NodeRef.enb 0 :: (List.range 10).map NodeRef.ue
  attachments := (List.range 10).map fun (i : Nat) => (NodeRef.ue i, NodeRef.enb 0)
  ueRoute := (Ipv4Address.ofOctets 7 0 0 0, Ipv4Address.ofOctets 255 0 0 0, 1)
  echoPort := 9
  serverApps := [⟨NodeRef.remoteHost, 9, Seconds 1, Seconds 20⟩]
  ueServerApps := (List.range 10).map fun (i : Nat) => ⟨NodeRef.ue i, 9, Seconds 1, Seconds 20⟩
  clientApps := specClients p true 2
  remoteClients := specClients p false 3
  notices := (List.range 10).map fun (i : Nat) =>
    ⟨Seconds (2 + (i : ℚ)), "Client ".toList ++ showNat (i + 1) ++ " sending data...".toList⟩
  pcapName := "iot-5g-sim"
  stopTime := Seconds 21

/-- An echo client with its three offered-load attributes blanked out. -/
def EchoClientApp.withoutLoad (c : EchoClientApp) : EchoClientApp :=
  { c with maxPackets := 0, interval := 0, packetSize := 0 }

/-- A scenario with the per-variant parameters blanked out: the offered-load
attributes of the clients and the root queue discs. -/
def Scenario.withoutLoad (s : Scenario) : Scenario :=
  { s with
    rootQueueDiscs := []
    clientApps := s.clientApps.map EchoClientApp.withoutLoad
    remoteClients := s.remoteClients.map EchoClientApp.withoutLoad }

/-- The parameter record of variant 1. -/
def paramsVariant1 : ScenarioParams := ⟨10, 1.0, 1024, none⟩

/-- The parameter record of variant 2. -/
def paramsVariant2 : ScenarioParams := ⟨100, 0.01, 2048, some 10⟩

/-- The nominal time of the `k`-th send of an echo client: `start + k × Interval`. -/
def nominalSend (c : EchoClientApp) (k : Nat) : Time := c.start + k * c.interval

/-- A time in seconds, as an exact rational. -/
def secondsOf (t : Time) : ℚ := (t : ℚ) / 1000000000

/-! ## Sample flow records -/

/-- A sample classifier entry: UDP from a UE address to the remote host. -/
def sampleTuple : FiveTuple :=
  ⟨Ipv4Address.ofOctets 7 0 0 2, Ipv4Address.ofOctets 1 0 0 2, 17, 49153, 9⟩

/-- A sample flow with ten packets sent and received. -/
def sampleFlow : FlowStats where
  timeFirstTxPacket := 2000000000
  timeLastRxPacket := 11050000000
  delaySum := 500000000
  rxBytes := 10520
  txPackets := 10
  rxPackets := 10
  lostPackets := 0

/-- A sample flow on which nothing was received. -/
def emptyFlow : FlowStats where
  timeFirstTxPacket := 3000000000
  timeLastRxPacket := 0
  delaySum := 0
  rxBytes := 0
  txPackets := 10
  rxPackets := 0
  lostPackets := 10

/-- A sample flow of zero duration. -/
def instantFlow : FlowStats where
  timeFirstTxPacket := 4000000000
  timeLastRxPacket := 4000000000
  delaySum := 0
  rxBytes := 1052
  txPackets := 1
  rxPackets := 1
  lostPackets := 0

/-- A flow first sent at 2.0 s and last received at 2.1 s, one byte received. -/
def shortFlow : FlowStats where
  timeFirstTxPacket := 2000000000
  timeLastRxPacket := 2100000000
  delaySum := 100000000
  rxBytes := 1
  txPackets := 1
  rxPackets := 1
  lostPackets := 0

/-- A flow whose two times are one tick apart, some 97 days into a run. -/
def lateFlow : FlowStats where
  timeFirstTxPacket := 8388608000000001
  timeLastRxPacket := 8388608000000002
  delaySum := 1
  rxBytes := 1024
  txPackets := 1
  rxPackets := 1
  lostPackets := 0

/-- A sample statistics map, filled out of key order. -/
def sampleStats : FlowStatsMap :=
  FlowStatsMap.ofList [(2, emptyFlow), (3, instantFlow), (1, sampleFlow)]

/-! ## Time conversions -/

theorem Seconds_intCast (n : ℤ) : Seconds ((n : ℤ) : ℚ) = n * 1000000000 := by
  unfold Seconds ticksPerSecond
  have h : (n : ℚ) * ((1000000000 : ℕ) : ℚ) = ((n * 1000000000 : ℤ) : ℚ) := by
    push_cast; ring
  rw [h, Int.floor_intCast]

theorem Seconds_add_natCast (a : ℤ) (i : ℕ) :
    Seconds ((a : ℚ) + (i : ℚ)) = (a + i) * 1000000000 := by
  have h := Seconds_intCast (a + i)
  push_cast at h
  exact h

theorem Seconds_two_add (i : ℕ) : Seconds (2.0 + (i : ℚ)) = (2 + i) * 1000000000 := by
  have h := Seconds_add_natCast 2 i
  norm_num at h ⊢
  exact h

theorem Seconds_three_add (i : ℕ) : Seconds (3.0 + (i : ℚ)) = (3 + i) * 1000000000 := by
  have h := Seconds_add_natCast 3 i
  norm_num at h ⊢
  exact h

theorem Seconds_one : Seconds 1.0 = 1000000000 := by
  norm_num [Seconds, ticksPerSecond]

theorem Seconds_twenty : Seconds 20.0 = 20000000000 := by
  norm_num [Seconds, ticksPerSecond]

theorem Seconds_twenty_one : Seconds 21.0 = 21000000000 := by
  norm_num [Seconds, ticksPerSecond]

theorem Seconds_hundredth : Seconds 0.01 = 10000000 := by
  norm_num [Seconds, ticksPerSecond]

/-! ## Characters of rendered values -/

theorem digitChar_isDigit (d : Nat) (h : d < 10) : (Nat.digitChar d).isDigit = true := by
  interval_cases d <;> decide

theorem toDigitsCore_isDigit (fuel : Nat) :
    ∀ (n : Nat) (ds : List Char), (∀ c ∈ ds, c.isDigit = true) →
      ∀ c ∈ Nat.toDigitsCore 10 fuel n ds, c.isDigit = true := by
  induction fuel with
  | zero => intro n ds hds c hc; exact hds c (by simpa [Nat.toDigitsCore] using hc)
  | succ fuel ih =>
    intro n ds hds c hc
    have hd : ∀ c ∈ Nat.digitChar (n % 10) :: ds, c.isDigit = true := by
      intro c hc
      rcases List.mem_cons.mp hc with rfl | hc
      · exact digitChar_isDigit _ (Nat.mod_lt _ (by decide))
      · exact hds c hc
    simp only [Nat.toDigitsCore] at hc
    split at hc
    · exact hd c hc
    · exact ih _ _ hd c hc

theorem showNat_isDigit (n : Nat) : ∀ c ∈ showNat n, c.isDigit = true :=
  toDigitsCore_isDigit _ _ _ (by simp)

theorem ValueText.append {u v : List Char} (hu : ValueText u) (hv : ValueText v) :
    ValueText (u ++ v) := by
  intro c hc
  rcases List.mem_append.mp hc with h | h
  · exact hu c h
  · exact hv c h

theorem ValueText.cons {c : Char} {v : List Char} (hc : isValueChar c = true)
    (hv : ValueText v) : ValueText (c :: v) := by
  intro d hd
  rcases List.mem_cons.mp hd with rfl | h
  · exact hc
  · exact hv d h

theorem valueText_showNat (n : Nat) : ValueText (showNat n) := by
  intro c hc
  simp [isValueChar, showNat_isDigit n c hc]

theorem valueText_print (a : Ipv4Address) : ValueText (Ipv4Address.print a) := by
  unfold Ipv4Address.print
  have hdot : isValueChar '.' = true := by decide
  exact ((((valueText_showNat _).append (ValueText.cons hdot (valueText_showNat _))).append
    (ValueText.cons hdot (valueText_showNat _))).append
      (ValueText.cons hdot (valueText_showNat _)))

theorem valueText_render (P : DoublePrinter) (x : Dbl) : ValueText (P.render x) :=
  P.render_chars x

theorem ValueText.not_mem {v : List Char} (hv : ValueText v) {c : Char}
    (hc : isValueChar c = false) : c ∉ v := by
  intro h
  have := hv c h
  simp [hc] at this

/-! ## Occurrences of a label, lines of the report -/

theorem countOcc_cons_ne {p c : Char} (ps s : List Char) (h : p ≠ c) :
    countOcc (p :: ps) (c :: s) = countOcc (p :: ps) s := by
  simp [countOcc, List.isPrefixOf, h]

theorem countOcc_value_append {p : Char} (ps : List Char) {v : List Char} (rest : List Char)
    (hp : isValueChar p = false) (hv : ValueText v) :
    countOcc (p :: ps) (v ++ rest) = countOcc (p :: ps) rest := by
  induction v with
  | nil => rfl
  | cons c v ih =>
    have hc : p ≠ c := by
      rintro rfl
      have := hv p (List.mem_cons_self _ _)
      simp [hp] at this
    rw [List.cons_append, countOcc_cons_ne _ _ hc]
    exact ih (fun d hd => hv d (List.mem_cons_of_mem _ hd))

theorem countOcc_value {p : Char} (ps : List Char) {v : List Char}
    (hp : isValueChar p = false) (hv : ValueText v) : countOcc (p :: ps) v = 0 := by
  have h := countOcc_value_append ps [] hp hv
  simpa [countOcc, List.isPrefixOf] using h

theorem countOcc_label (P : DoublePrinter) (t : FiveTuple) (id : FlowId) (st : FlowStats)
    (l : List Char) (hl : l ∈ reportLabels) : countOcc l (Code.flowLine P t id st) = 1 := by
  have hF : isValueChar 'F' = false := by decide
  have hS : isValueChar 'S' = false := by decide
  have hD : isValueChar 'D' = false := by decide
  have hT : isValueChar 'T' = false := by decide
  have hR : isValueChar 'R' = false := by decide
  have hL : isValueChar 'L' = false := by decide
  simp only [reportLabels, List.mem_cons, List.mem_singleton, List.not_mem_nil, or_false] at hl
  simp only [Code.flowLine, String.toList, List.append_assoc, List.cons_append, List.nil_append]
  rcases hl with rfl | rfl | rfl | rfl | rfl | rfl | rfl | rfl
  · simp [countOcc, List.isPrefixOf, countOcc_value_append _ _ hF (valueText_showNat _),
      countOcc_value_append _ _ hF (valueText_print _),
      countOcc_value_append _ _ hF (valueText_render _ _),
      countOcc_value _ hF (valueText_render _ _)]
  · simp [countOcc, List.isPrefixOf, countOcc_value_append _ _ hS (valueText_showNat _),
      countOcc_value_append _ _ hS (valueText_print _),
      countOcc_value_append _ _ hS (valueText_render _ _),
      countOcc_value _ hS (valueText_render _ _)]
  · simp [countOcc, List.isPrefixOf, countOcc_value_append _ _ hD (valueText_showNat _),
      countOcc_value_append _ _ hD (valueText_print _),
      countOcc_value_append _ _ hD (valueText_render _ _),
      countOcc_value _ hD (valueText_render _ _)]
  · simp [countOcc, List.isPrefixOf, countOcc_value_append _ _ hT (valueText_showNat _),
      countOcc_value_append _ _ hT (valueText_print _),
      countOcc_value_append _ _ hT (valueText_render _ _),
      countOcc_value _ hT (valueText_render _ _)]
  · simp [countOcc, List.isPrefixOf, countOcc_value_append _ _ hR (valueText_showNat _),
      countOcc_value_append _ _ hR (valueText_print _),
      countOcc_value_append _ _ hR (valueText_render _ _),
      countOcc_value _ hR (valueText_render _ _)]
  · simp [countOcc, List.isPrefixOf, countOcc_value_append _ _ hL (valueText_showNat _),
      countOcc_value_append _ _ hL (valueText_print _),
      countOcc_value_append _ _ hL (valueText_render _ _),
      countOcc_value _ hL (valueText_render _ _)]
  · simp [countOcc, List.isPrefixOf, countOcc_value_append _ _ hD (valueText_showNat _),
      countOcc_value_append _ _ hD (valueText_print _),
      countOcc_value_append _ _ hD (valueText_render _ _),
      countOcc_value _ hD (valueText_render _ _)]
  · simp [countOcc, List.isPrefixOf, countOcc_value_append _ _ hT (valueText_showNat _),
      countOcc_value_append _ _ hT (valueText_print _),
      countOcc_value_append _ _ hT (valueText_render _ _),
      countOcc_value _ hT (valueText_render _ _)]

theorem splitLines_append_newline (v rest : List Char) (hv : '\n' ∉ v) :
    splitLines (v ++ '\n' :: rest) = v :: splitLines rest := by
  induction v with
  | nil => simp [splitLines]
  | cons c v ih =>
    have hc : c ≠ '\n' := fun h => hv (h ▸ List.mem_cons_self _ _)
    have hv2 : '\n' ∉ v := fun h => hv (List.mem_cons_of_mem _ h)
    simp [splitLines, hc, ih hv2]

theorem newline_not_mem_flowLine (P : DoublePrinter) (t : FiveTuple) (id : FlowId)
    (st : FlowStats) : '\n' ∉ Code.flowLine P t id st := by
  have hn : isValueChar '\n' = false := by decide
  simp [Code.flowLine, (valueText_showNat _).not_mem hn, (valueText_print _).not_mem hn,
    (valueText_render P _).not_mem hn]

theorem foldl_lines (f : FlowId × FlowStats → List Char) (es : List (FlowId × FlowStats)) :
    ∀ init : List Char,
      es.foldl (fun out flow => out ++ f flow ++ ['\n']) init =
        init ++ es.flatMap (fun flow => f flow ++ ['\n']) := by
  induction es with
  | nil => intro init; simp
  | cons e es ih =>
    intro init
    simp only [List.foldl_cons, List.flatMap_cons]
    rw [ih]
    simp [List.append_assoc]

theorem splitLines_flatMap (f : FlowId × FlowStats → List Char)
    (hf : ∀ e, '\n' ∉ f e) (es : List (FlowId × FlowStats)) :
    splitLines (es.flatMap (fun flow => f flow ++ ['\n'])) = es.map f := by
  induction es with
  | nil => simp [splitLines]
  | cons e es ih =>
    simp only [List.flatMap_cons, List.map_cons, List.append_assoc, List.singleton_append]
    rw [splitLines_append_newline _ _ (hf e), ih]

theorem splitLines_report (P : DoublePrinter) (F : FlowId → FiveTuple) (stats : FlowStatsMap) :
    splitLines (Code.report P F stats) =
      [] :: "Flow Monitor Results:".toList ::
        stats.entries.map (fun e => Code.flowLine P (F e.1) e.1 e.2) := by
  unfold Code.report
  rw [foldl_lines (fun e => Code.flowLine P (F e.1) e.1 e.2)]
  have h1 : "\nFlow Monitor Results:\n".toList =
      '\n' :: ("Flow Monitor Results:".toList ++ ['\n']) := by decide
  have h2 : ∀ rest, splitLines ('\n' :: rest) = [] :: splitLines rest := by
    intro rest; simp [splitLines]
  rw [h1]
  simp only [List.cons_append, List.append_assoc, List.singleton_append]
  rw [h2, splitLines_append_newline _ _ (by decide), List.nil_append,
    splitLines_flatMap (fun e => Code.flowLine P (F e.1) e.1 e.2)
      (fun e => newline_not_mem_flowLine P _ _ _)]


/-! ## Rounding to binary64 -/

theorem rne_err (m : ℚ) : |(rne m : ℚ) - m| ≤ 1 / 2 := by
  have h1 : (⌊m⌋ : ℚ) ≤ m := Int.floor_le m
  have h2 : m < ⌊m⌋ + 1 := Int.lt_floor_add_one m
  unfold rne
  split_ifs with ha hb hc
  · rw [abs_le]; constructor <;> linarith
  · push_cast; rw [abs_le]; constructor <;> linarith
  · have : m - ⌊m⌋ = 1 / 2 := le_antisymm (not_lt.mp hb) (not_lt.mp ha)
    rw [abs_le]; constructor <;> linarith
  · have : m - ⌊m⌋ = 1 / 2 := le_antisymm (not_lt.mp hb) (not_lt.mp ha)
    push_cast; rw [abs_le]; constructor <;> linarith

theorem rne_eq_of_lt (m : ℚ) (M : ℤ) (h : |m - M| < 1 / 2) : rne m = M := by
  rw [abs_lt] at h
  have h1 : (⌊m⌋ : ℚ) ≤ m := Int.floor_le m
  have h2 : m < ⌊m⌋ + 1 := Int.lt_floor_add_one m
  have hM : ⌊m⌋ = M ∨ ⌊m⌋ = M - 1 := by
    have a1 : (⌊m⌋ : ℚ) < (M : ℚ) + 1 := by linarith
    have a2 : (M : ℚ) - 2 < (⌊m⌋ : ℚ) := by linarith
    have b1 : ⌊m⌋ < M + 1 := by exact_mod_cast a1
    have b2 : M - 2 < ⌊m⌋ := by exact_mod_cast a2
    omega
  unfold rne
  rcases hM with hM | hM
  · have hc : m - ⌊m⌋ < 1 / 2 := by rw [hM]; linarith
    rw [if_pos hc, hM]
  · have e : (⌊m⌋ : ℚ) = M - 1 := by rw [hM]; push_cast; ring
    have hc : ¬ (m - ⌊m⌋ < 1 / 2) := by rw [e]; intro hh; linarith
    have hd : 1 / 2 < m - ⌊m⌋ := by rw [e]; linarith
    rw [if_neg hc, if_pos hd, hM]; ring

theorem ulp_pos (x : ℚ) : 0 < ulp x := by
  unfold ulp; positivity

theorem ulp_le (x : ℚ) (hx : x ≠ 0) : ulp x * 2 ^ 52 ≤ |x| := by
  have h := Int.zpow_log_le_self (R := ℚ) (b := 2) (by norm_num) (abs_pos.mpr hx)
  unfold ulp
  rw [zpow_sub₀ (by norm_num : (2 : ℚ) ≠ 0)]
  have : (2 : ℚ) ^ (Int.log 2 |x|) / 2 ^ (52 : ℤ) * 2 ^ 52 = (2 : ℚ) ^ (Int.log 2 |x|) := by
    norm_num
  rw [this]
  exact_mod_cast h

theorem round53_err (x : ℚ) : |round53 x - x| ≤ |x| / 2 ^ 53 := by
  unfold round53
  split_ifs with h0
  · simp [h0]
  · have hu := ulp_pos x
    have hm := rne_err (x / ulp x)
    have e : (rne (x / ulp x) : ℚ) * ulp x - x = ((rne (x / ulp x) : ℚ) - x / ulp x) * ulp x := by
      field_simp
    rw [e, abs_mul, abs_of_pos hu]
    have hl := ulp_le x h0
    rw [le_div_iff₀ (by positivity)]
    calc |(rne (x / ulp x) : ℚ) - x / ulp x| * ulp x * 2 ^ 53
        ≤ 1 / 2 * ulp x * 2 ^ 53 := by gcongr
      _ = ulp x * 2 ^ 52 := by ring
      _ ≤ |x| := hl

theorem round53_zero : round53 0 = 0 := by simp [round53]

theorem round53_pos {x : ℚ} (hx : 0 < x) : 0 < round53 x := by
  have h := round53_err x
  rw [abs_of_pos hx, abs_le] at h
  have : x / 2 ^ 53 < x := by
    rw [div_lt_iff₀ (by positivity)]
    nlinarith
  linarith

theorem round53_neg {x : ℚ} (hx : x < 0) : round53 x < 0 := by
  have h := round53_err x
  rw [abs_of_neg hx, abs_le] at h
  have : -x / 2 ^ 53 < -x := by
    rw [div_lt_iff₀ (by positivity)]
    nlinarith
  linarith

theorem round53_eq_of (x : ℚ) (e M : ℤ) (h1 : (2 : ℚ) ^ e ≤ |x|) (h2 : |x| < (2 : ℚ) ^ (e + 1))
    (h3 : |x / (2 : ℚ) ^ (e - 52) - M| < 1 / 2) : round53 x = M * (2 : ℚ) ^ (e - 52) := by
  have hpos : 0 < |x| := lt_of_lt_of_le (by positivity) h1
  have hx : x ≠ 0 := abs_pos.mp hpos
  have hlog : Int.log 2 |x| = e := by
    have a := (Int.zpow_le_iff_le_log (R := ℚ) (b := 2) (by norm_num) hpos).mp
      (by exact_mod_cast h1)
    have b := (Int.lt_zpow_iff_log_lt (R := ℚ) (b := 2) (by norm_num) hpos).mp
      (by exact_mod_cast h2)
    omega
  unfold round53
  rw [if_neg hx]
  unfold ulp
  rw [hlog, rne_eq_of_lt _ M h3]


theorem round53_eq_of_pos (x : ℚ) (e M : ℤ) (h1 : (2 : ℚ) ^ e ≤ x) (h2 : x < (2 : ℚ) ^ (e + 1))
    (h3 : |x / (2 : ℚ) ^ (e - 52) - M| < 1 / 2) : round53 x = M * (2 : ℚ) ^ (e - 52) := by
  have hpos : 0 < x := lt_of_lt_of_le (by positivity) h1
  exact round53_eq_of x e M (by rwa [abs_of_pos hpos]) (by rwa [abs_of_pos hpos]) h3

theorem RelErr.mono {ε ε' y x : ℚ} (h : RelErr ε y x) (he : ε ≤ ε') : RelErr ε' y x := by
  unfold RelErr at *
  exact le_trans h (mul_le_mul_of_nonneg_right he (abs_nonneg x))

theorem relErr_round53 (x : ℚ) : RelErr (1 / 2 ^ 53) (round53 x) x := by
  unfold RelErr
  have h := round53_err x
  calc |round53 x - x| ≤ |x| / 2 ^ 53 := h
    _ = 1 / 2 ^ 53 * |x| := by ring

theorem RelErr.trans {ε₁ ε₂ z y x : ℚ} (h2 : RelErr ε₂ z y) (h1 : RelErr ε₁ y x)
    (hε₂ : 0 ≤ ε₂) : RelErr (ε₁ + ε₂ + ε₁ * ε₂) z x := by
  unfold RelErr at *
  have hy : |y| ≤ |x| + ε₁ * |x| := by
    calc |y| = |(y - x) + x| := by ring_nf
      _ ≤ |y - x| + |x| := abs_add _ _
      _ ≤ ε₁ * |x| + |x| := by linarith
      _ = |x| + ε₁ * |x| := by ring
  calc |z - x| = |(z - y) + (y - x)| := by ring_nf
    _ ≤ |z - y| + |y - x| := abs_add _ _
    _ ≤ ε₂ * |y| + ε₁ * |x| := by linarith
    _ ≤ ε₂ * (|x| + ε₁ * |x|) + ε₁ * |x| := by
        have := mul_le_mul_of_nonneg_left hy hε₂
        linarith
    _ = (ε₁ + ε₂ + ε₁ * ε₂) * |x| := by ring

theorem RelErr.mul_const {ε y x : ℚ} (h : RelErr ε y x) (c : ℚ) : RelErr ε (y * c) (x * c) := by
  unfold RelErr at *
  have e : y * c - x * c = (y - x) * c := by ring
  rw [e, abs_mul, abs_mul]
  calc |y - x| * |c| ≤ ε * |x| * |c| := mul_le_mul_of_nonneg_right h (abs_nonneg c)
    _ = ε * (|x| * |c|) := by ring

theorem RelErr.div {εn εd N n D d : ℚ} (hn : RelErr εn N n) (hd : RelErr εd D d)
    (hd0 : d ≠ 0) (hεd : εd < 1) (hεn : 0 ≤ εn) (hεd0 : 0 ≤ εd) :
    RelErr ((εn + εd) / (1 - εd)) (N / D) (n / d) := by
  unfold RelErr at *
  have hdpos : 0 < |d| := abs_pos.mpr hd0
  have hDlow : (1 - εd) * |d| ≤ |D| := by
    have : |d| - |D| ≤ |D - d| := by
      have := abs_sub_abs_le_abs_sub d D
      rwa [abs_sub_comm d D] at this
    linarith
  have h1 : 0 < 1 - εd := by linarith
  have hDpos : 0 < |D| := lt_of_lt_of_le (mul_pos h1 hdpos) hDlow
  have hD0 : D ≠ 0 := abs_pos.mp hDpos
  have e : N / D - n / d = ((N - n) * d - n * (D - d)) / (D * d) := by
    field_simp
    ring
  rw [e, abs_div, abs_mul, abs_div, div_le_iff₀ (mul_pos hDpos hdpos)]
  have hnum : |(N - n) * d - n * (D - d)| ≤ (εn + εd) * (|n| * |d|) := by
    calc |(N - n) * d - n * (D - d)| ≤ |(N - n) * d| + |n * (D - d)| := abs_sub _ _
      _ = |N - n| * |d| + |n| * |D - d| := by rw [abs_mul, abs_mul]
      _ ≤ εn * |n| * |d| + |n| * (εd * |d|) := by
          have a := mul_le_mul_of_nonneg_right hn (abs_nonneg d)
          have b := mul_le_mul_of_nonneg_left hd (abs_nonneg n)
          linarith
      _ = (εn + εd) * (|n| * |d|) := by ring
  have hrhs : (εn + εd) * (|n| * |d|) ≤ (εn + εd) / (1 - εd) * (|n| / |d|) * (|D| * |d|) := by
    have e2 : (εn + εd) / (1 - εd) * (|n| / |d|) * (|D| * |d|) =
        (εn + εd) * |n| * (|D| / (1 - εd)) := by
      field_simp
      ring
    rw [e2]
    have h3 : |d| ≤ |D| / (1 - εd) := by
      rw [le_div_iff₀ h1]
      linarith
    have h4 : 0 ≤ (εn + εd) * |n| := mul_nonneg (by linarith) (abs_nonneg n)
    calc (εn + εd) * (|n| * |d|) = (εn + εd) * |n| * |d| := by ring
      _ ≤ (εn + εd) * |n| * (|D| / (1 - εd)) := mul_le_mul_of_nonneg_left h3 h4
  exact le_trans hnum hrhs

theorem RelErr.sub {u A a B b : ℚ} (ha : RelErr u A a) (hb : RelErr u B b) (hab : a ≠ b) :
    RelErr (u * (|a| + |b|) / |a - b|) (A - B) (a - b) := by
  unfold RelErr at *
  have hpos : 0 < |a - b| := abs_pos.mpr (sub_ne_zero.mpr hab)
  have e : A - B - (a - b) = (A - a) - (B - b) := by ring
  rw [e, div_mul_cancel₀ _ (ne_of_gt hpos)]
  calc |(A - a) - (B - b)| ≤ |A - a| + |B - b| := abs_sub _ _
    _ ≤ u * |a| + u * |b| := by linarith
    _ = u * (|a| + |b|) := by ring

/-! ## The report -/

theorem round53_eq_zero_iff (x : ℚ) : round53 x = 0 ↔ x = 0 := by
  constructor
  · intro h
    by_contra hx
    rcases lt_or_gt_of_ne hx with h1 | h1
    · exact absurd h (ne_of_lt (round53_neg h1))
    · exact absurd h (ne_of_gt (round53_pos h1))
  · rintro rfl
    exact round53_zero

theorem round53_nonneg {x : ℚ} (hx : 0 ≤ x) : 0 ≤ round53 x := by
  rcases eq_or_lt_of_le hx with h | h
  · rw [← h, round53_zero]
  · exact le_of_lt (round53_pos h)

theorem sub_fin_fin (a b : ℚ) : Dbl.sub (Dbl.fin a) (Dbl.fin b) = Dbl.fin (round53 (a - b)) := by
  simp only [Dbl.sub]
  split_ifs with h
  · rw [h, round53_zero]
  · rfl

theorem mul_ofNat_eight (n : ℕ) :
    Dbl.mul (Dbl.ofNat n) (Dbl.fin 8.0) = Dbl.fin (round53 (round53 n * 8)) := by
  have h8 : (8.0 : ℚ) = 8 := by norm_num
  have hn : 0 ≤ round53 (n : ℚ) := round53_nonneg (Nat.cast_nonneg n)
  simp only [Dbl.mul, Dbl.ofNat, h8]
  split_ifs with h
  · have h0 : ¬ (round53 (n : ℚ) < 0) := not_lt.mpr hn
    rw [h, round53_zero]
    simp [Dbl.zero, h0]
  · rfl

theorem throughputExpr_ok (st : FlowStats) :
    Code.throughputExpr st = Except.ok (CVal.dbl (Code.throughput st)) := rfl

theorem getSeconds_eq (t : Time) : GetSeconds t = Dbl.fin (round53 (secondsOf t)) := by
  simp [GetSeconds, secondsOf, ticksPerSecond]

theorem throughput_eq (st : FlowStats) :
    Code.throughput st =
      Dbl.div (Dbl.fin (round53 (round53 st.rxBytes * 8)))
        (Dbl.fin (round53 (round53 (secondsOf st.timeLastRxPacket) -
          round53 (secondsOf st.timeFirstTxPacket)))) := by
  rw [← sub_fin_fin, ← mul_ofNat_eight, ← getSeconds_eq, ← getSeconds_eq]
  rfl

theorem div_fin_fin_toRat (n d : ℚ) (hd : d ≠ 0) :
    (Dbl.div (Dbl.fin n) (Dbl.fin d)).toRat? = some (round53 (n / d)) := by
  simp only [Dbl.div, if_neg hd]
  split_ifs with h
  · rw [h, zero_div, round53_zero]
    unfold Dbl.zero
    split_ifs <;> rfl
  · rfl

theorem secondsOf_sub_abs {a b : ℤ} (h : a ≠ b) :
    1 / 1000000000 ≤ |secondsOf a - secondsOf b| := by
  have h1 : (1 : ℤ) ≤ |a - b| := Int.one_le_abs (sub_ne_zero.mpr h)
  have h2 : ((1 : ℤ) : ℚ) ≤ ((|a - b| : ℤ) : ℚ) := by exact_mod_cast h1
  have e : secondsOf a - secondsOf b = ((a - b : ℤ) : ℚ) / 1000000000 := by
    unfold secondsOf
    push_cast
    ring
  rw [e, abs_div, abs_of_pos (by norm_num : (0 : ℚ) < 1000000000),
    div_le_div_iff₀ (by norm_num) (by norm_num)]
  push_cast at h2 ⊢
  linarith

theorem secondsOf_bounds {t : ℤ} (h0 : 0 ≤ t) (h1 : t ≤ 21000000000) :
    |secondsOf t| ≤ 21 := by
  have a : (0 : ℚ) ≤ (t : ℚ) := by exact_mod_cast h0
  have b : (t : ℚ) ≤ 21000000000 := by exact_mod_cast h1
  unfold secondsOf
  rw [abs_of_nonneg (by positivity), div_le_iff₀ (by norm_num)]
  linarith

theorem throughput_relErr (n : ℕ) (a b : ℚ) (ha : |a| ≤ 21) (hb : |b| ≤ 21)
    (hab : 1 / 1000000000 ≤ |a - b|) :
    RelErr (1 / 100000) (round53 (round53 (round53 n * 8) / round53 (round53 a - round53 b)))
      ((n : ℚ) * 8 / (a - b)) := by
  have hne : a ≠ b := by
    intro h
    rw [h, sub_self, abs_zero] at hab
    norm_num at hab
  have hpos : 0 < |a - b| := lt_of_lt_of_le (by norm_num) hab
  have hN : RelErr (1 / 2 ^ 53 + 1 / 2 ^ 53 + 1 / 2 ^ 53 * (1 / 2 ^ 53))
      (round53 (round53 n * 8)) ((n : ℚ) * 8) :=
    RelErr.trans (relErr_round53 _) ((relErr_round53 (n : ℚ)).mul_const 8) (by positivity)
  have hS : RelErr (1 / 2 ^ 53 * 42 * 1000000000) (round53 a - round53 b) (a - b) := by
    refine RelErr.mono (RelErr.sub (relErr_round53 a) (relErr_round53 b) hne) ?_
    rw [div_le_iff₀ hpos]
    have h42 : |a| + |b| ≤ 42 := by linarith
    have hu : (0 : ℚ) < 1 / 2 ^ 53 := by positivity
    calc 1 / 2 ^ 53 * (|a| + |b|) ≤ 1 / 2 ^ 53 * 42 := by gcongr
      _ = 1 / 2 ^ 53 * 42 * 1000000000 * (1 / 1000000000) := by ring
      _ ≤ 1 / 2 ^ 53 * 42 * 1000000000 * |a - b| := by gcongr
  have hD := RelErr.trans (relErr_round53 (round53 a - round53 b)) hS (by positivity)
  have hQ := RelErr.div hN hD (sub_ne_zero.mpr hne) (by norm_num) (by positivity) (by positivity)
  have hT := RelErr.trans (relErr_round53 (round53 (round53 n * 8) /
    round53 (round53 a - round53 b))) hQ (by positivity)
  exact RelErr.mono hT (by norm_num)

theorem throughput_denominator_ne {a b : ℚ} (ha : |a| ≤ 21) (hb : |b| ≤ 21)
    (hab : 1 / 1000000000 ≤ |a - b|) : round53 (round53 a - round53 b) ≠ 0 := by
  rw [Ne, round53_eq_zero_iff]
  intro h
  have h1 := round53_err a
  have h2 := round53_err b
  have e : a - b = (round53 b - b) - (round53 a - a) := by linarith
  have h3 : |a - b| ≤ |round53 b - b| + |round53 a - a| := by
    rw [e]
    exact abs_sub _ _
  have h4 : |a| / 2 ^ 53 ≤ 21 / 2 ^ 53 := by gcongr
  have h5 : |b| / 2 ^ 53 ≤ 21 / 2 ^ 53 := by gcongr
  have h6 : |a - b| ≤ 42 / 2 ^ 53 := by linarith
  have h7 : (42 : ℚ) / 2 ^ 53 < 1 / 1000000000 := by norm_num
  linarith

/-- C1 as amended: for a flow with `rxPackets > 0` whose `timeFirstTxPacket` and
`timeLastRxPacket` lie in the simulated window from 0 s to 21 s and differ, the
throughput computed by the report of either variant is a finite double within
a relative error of `10⁻⁵` of `rxBytes × 8 / (timeLastRx − timeFirstTx)`, both
times in seconds, and it is the value the flow line prints after the label
`Throughput (bps):`. -/
theorem throughput_formula (P : DoublePrinter) (t : FiveTuple) (id : FlowId) (st : FlowStats)
    (hrx : 0 < st.rxPackets) (hne : st.timeLastRxPacket ≠ st.timeFirstTxPacket)
    (hF : 0 ≤ st.timeFirstTxPacket ∧ st.timeFirstTxPacket ≤ 21000000000)
    (hL : 0 ≤ st.timeLastRxPacket ∧ st.timeLastRxPacket ≤ 21000000000) :
    (∃ v : ℚ, (Code.throughput st).toRat? = some v ∧
        |v - (st.rxBytes : ℚ) * 8 /
            (secondsOf st.timeLastRxPacket - secondsOf st.timeFirstTxPacket)| ≤
          1 / 100000 * |(st.rxBytes : ℚ) * 8 /
            (secondsOf st.timeLastRxPacket - secondsOf st.timeFirstTxPacket)|)
      ∧ ThroughputAndLoss.throughput st = Code.throughput st
      ∧ (∃ pre, Code.flowLine P t id st =
          pre ++ " Throughput (bps): ".toList ++ P.render (Code.throughput st))
      ∧ ThroughputAndLoss.flowLine P t id st = Code.flowLine P t id st := by
  have _ := hrx
  have ha := secondsOf_bounds hL.1 hL.2
  have hb := secondsOf_bounds hF.1 hF.2
  have hab := secondsOf_sub_abs hne
  refine ⟨⟨_, ?_, throughput_relErr st.rxBytes _ _ ha hb hab⟩, rfl, ⟨_, rfl⟩, rfl⟩
  rw [throughput_eq]
  exact div_fin_fin_toRat _ _ (throughput_denominator_ne ha hb hab)

/-- Witness of C1 as amended, on a sample flow. -/
theorem throughput_formula_witness :
    ∃ v : ℚ, (Code.throughput sampleFlow).toRat? = some v ∧
      |v - (sampleFlow.rxBytes : ℚ) * 8 /
          (secondsOf sampleFlow.timeLastRxPacket - secondsOf sampleFlow.timeFirstTxPacket)| ≤
        1 / 100000 * |(sampleFlow.rxBytes : ℚ) * 8 /
          (secondsOf sampleFlow.timeLastRxPacket - secondsOf sampleFlow.timeFirstTxPacket)| :=
  (throughput_formula samplePrinter sampleTuple 1 sampleFlow (by decide) (by decide)
    ⟨by decide, by decide⟩ ⟨by decide, by decide⟩).1

/-- Counterexample to C1 as stated: a flow with `rxPackets > 0` and distinct
times, one tick apart some 97 days into a run, for which both times convert to
the same double, so that the computed throughput is `+inf` and not
`rxBytes × 8 / (timeLastRx − timeFirstTx)`; and a flow from 2.0 s to 2.1 s with
one byte, whose exact quotient is 80 while the computed double is
`5629499534213115 / 2 ^ 46`, just below 80. -/
theorem throughput_exact_counterexample :
    (0 < lateFlow.rxPackets ∧ lateFlow.timeLastRxPacket ≠ lateFlow.timeFirstTxPacket
        ∧ Code.throughput lateFlow = Dbl.pinf
        ∧ ThroughputAndLoss.throughput lateFlow = Dbl.pinf)
      ∧ (0 < shortFlow.rxPackets ∧ shortFlow.timeLastRxPacket ≠ shortFlow.timeFirstTxPacket
        ∧ (shortFlow.rxBytes : ℚ) * 8 /
            (secondsOf shortFlow.timeLastRxPacket - secondsOf shortFlow.timeFirstTxPacket) = 80
        ∧ Code.throughput shortFlow = Dbl.fin (5629499534213115 / 70368744177664)
        ∧ (5629499534213115 / 70368744177664 : ℚ) ≠ 80) := by
  have hlate : Code.throughput lateFlow = Dbl.pinf := by
    have h1 : round53 (secondsOf lateFlow.timeLastRxPacket) = 4503599627370497 / 536870912 := by
      rw [round53_eq_of_pos _ 23 4503599627370497 (by norm_num [secondsOf, lateFlow])
        (by norm_num [secondsOf, lateFlow]) (by norm_num [secondsOf, lateFlow, abs_lt])]
      norm_num
    have h2 : round53 (secondsOf lateFlow.timeFirstTxPacket) = 4503599627370497 / 536870912 := by
      rw [round53_eq_of_pos _ 23 4503599627370497 (by norm_num [secondsOf, lateFlow])
        (by norm_num [secondsOf, lateFlow]) (by norm_num [secondsOf, lateFlow, abs_lt])]
      norm_num
    have hn : 0 < round53 (round53 (lateFlow.rxBytes : ℚ) * 8) :=
      round53_pos (mul_pos (round53_pos (by norm_num [lateFlow])) (by norm_num))
    rw [throughput_eq, h1, h2, sub_self, round53_zero]
    simp only [Dbl.div, if_true, if_neg (ne_of_gt hn)]
    simp [Dbl.inf, not_lt.mpr (le_of_lt hn)]
  have hshort : Code.throughput shortFlow = Dbl.fin (5629499534213115 / 70368744177664) := by
    have h1 : round53 (secondsOf shortFlow.timeLastRxPacket) =
        4728779608739021 / 2251799813685248 := by
      rw [round53_eq_of_pos _ 1 4728779608739021 (by norm_num [secondsOf, shortFlow])
        (by norm_num [secondsOf, shortFlow]) (by norm_num [secondsOf, shortFlow, abs_lt])]
      norm_num
    have h2 : round53 (secondsOf shortFlow.timeFirstTxPacket) = 2 := by
      rw [round53_eq_of_pos _ 1 4503599627370496 (by norm_num [secondsOf, shortFlow])
        (by norm_num [secondsOf, shortFlow]) (by norm_num [secondsOf, shortFlow, abs_lt])]
      norm_num
    have h3 : round53 ((4728779608739021 : ℚ) / 2251799813685248 - 2) =
        225179981368525 / 2251799813685248 := by
      rw [round53_eq_of_pos _ (-4) 7205759403792800 (by norm_num) (by norm_num)
        (by norm_num [abs_lt])]
      norm_num
    have h4 : round53 ((shortFlow.rxBytes : ℕ) : ℚ) = 1 := by
      rw [round53_eq_of_pos _ 0 4503599627370496 (by norm_num [shortFlow])
        (by norm_num [shortFlow]) (by norm_num [shortFlow, abs_lt])]
      norm_num
    have h5 : round53 ((1 : ℚ) * 8) = 8 := by
      rw [round53_eq_of_pos _ 3 4503599627370496 (by norm_num) (by norm_num)
        (by norm_num [abs_lt])]
      norm_num
    have h6 : round53 ((8 : ℚ) / (225179981368525 / 2251799813685248)) =
        5629499534213115 / 70368744177664 := by
      rw [round53_eq_of_pos _ 6 5629499534213115 (by norm_num) (by norm_num)
        (by norm_num [abs_lt])]
      norm_num
    rw [throughput_eq, h1, h2, h3, h4, h5]
    simp only [Dbl.div]
    rw [if_neg (by norm_num), if_neg (by norm_num), h6]
  refine ⟨⟨by decide, by decide, hlate, hlate⟩, by decide, by decide, ?_, hshort, by norm_num⟩
  norm_num [secondsOf, shortFlow]

theorem throughput_degenerate (st : FlowStats)
    (hdeg : st.timeLastRxPacket = st.timeFirstTxPacket ∨ (st.rxPackets = 0 ∧ st.rxBytes = 0)) :
    Code.throughput st =
      if st.timeLastRxPacket = st.timeFirstTxPacket then
        (if st.rxBytes = 0 then Dbl.nan else Dbl.pinf)
      else if round53 (secondsOf st.timeLastRxPacket) =
          round53 (secondsOf st.timeFirstTxPacket) then Dbl.nan
      else if round53 (secondsOf st.timeLastRxPacket) <
          round53 (secondsOf st.timeFirstTxPacket) then Dbl.nzero
      else Dbl.fin 0 := by
  rw [throughput_eq]
  by_cases heq : st.timeLastRxPacket = st.timeFirstTxPacket
  · rw [if_pos heq, heq, sub_self, round53_zero]
    by_cases h0 : st.rxBytes = 0
    · rw [if_pos h0, h0]
      simp [Dbl.div, round53_zero]
    · rw [if_neg h0]
      have hb : (0 : ℚ) < (st.rxBytes : ℚ) := by exact_mod_cast Nat.pos_of_ne_zero h0
      have hn : 0 < round53 (round53 (st.rxBytes : ℚ) * 8) :=
        round53_pos (mul_pos (round53_pos hb) (by norm_num))
      simp only [Dbl.div, if_true, if_neg (ne_of_gt hn)]
      simp [Dbl.inf, not_lt.mpr (le_of_lt hn)]
  · rw [if_neg heq]
    have h0 : st.rxBytes = 0 := by
      rcases hdeg with h | ⟨_, h⟩
      · exact absurd h heq
      · exact h
    rw [h0]
    simp only [Nat.cast_zero, round53_zero, zero_mul, Dbl.div, if_true]
    by_cases hAB : round53 (secondsOf st.timeLastRxPacket) =
        round53 (secondsOf st.timeFirstTxPacket)
    · rw [if_pos hAB, hAB, sub_self, round53_zero]
      simp
    · rw [if_neg hAB]
      have hd : round53 (round53 (secondsOf st.timeLastRxPacket) -
          round53 (secondsOf st.timeFirstTxPacket)) ≠ 0 := by
        rw [Ne, round53_eq_zero_iff, sub_eq_zero]
        exact hAB
      rw [if_neg hd]
      by_cases hlt : round53 (secondsOf st.timeLastRxPacket) <
          round53 (secondsOf st.timeFirstTxPacket)
      · rw [if_pos hlt]
        have : round53 (round53 (secondsOf st.timeLastRxPacket) -
            round53 (secondsOf st.timeFirstTxPacket)) < 0 := round53_neg (by linarith)
        simp [Dbl.zero, this]
      · rw [if_neg hlt]
        have hgt : 0 < round53 (secondsOf st.timeLastRxPacket) -
            round53 (secondsOf st.timeFirstTxPacket) := by
          rcases lt_or_gt_of_ne hAB with h | h
          · exact absurd h hlt
          · linarith
        have : ¬ round53 (round53 (secondsOf st.timeLastRxPacket) -
            round53 (secondsOf st.timeFirstTxPacket)) < 0 :=
          not_lt.mpr (le_of_lt (round53_pos hgt))
        simp [Dbl.zero, this]

/-- C2: on a degenerate flow of the collected statistics (zero duration, or
nothing received) the evaluation of the throughput expression does not fault in
either variant: the division is a `double` division and yields NaN (zero bytes
over a zero difference), `+inf` (bytes over zero duration), or a zero whose
sign is that of the time difference, which is `-0` on a flow on which nothing
was received (`timeLastRxPacket` = 0); and the report emits that flow's line,
with that value after the label `Throughput (bps):`. -/
theorem report_degenerate (P : DoublePrinter) (F : FlowId → FiveTuple) (stats : FlowStatsMap)
    (e : FlowId × FlowStats) (he : e ∈ stats.entries)
    (hdeg : e.2.timeLastRxPacket = e.2.timeFirstTxPacket ∨
      (e.2.rxPackets = 0 ∧ e.2.rxBytes = 0)) :
    (∃ v : Dbl,
        Code.throughputExpr e.2 = Except.ok (CVal.dbl v)
        ∧ ThroughputAndLoss.throughputExpr e.2 = Except.ok (CVal.dbl v)
        ∧ v = (if e.2.timeLastRxPacket = e.2.timeFirstTxPacket then
                (if e.2.rxBytes = 0 then Dbl.nan else Dbl.pinf)
              else if round53 (secondsOf e.2.timeLastRxPacket) =
                  round53 (secondsOf e.2.timeFirstTxPacket) then Dbl.nan
              else if round53 (secondsOf e.2.timeLastRxPacket) <
                  round53 (secondsOf e.2.timeFirstTxPacket) then Dbl.nzero
              else Dbl.fin 0)
        ∧ (e.2.rxBytes = 0 → e.2.timeLastRxPacket = 0 → 0 < e.2.timeFirstTxPacket →
            v = Dbl.nzero)
        ∧ ("Flow ID: ".toList ++ showNat e.1
            ++ " Src: ".toList ++ Ipv4Address.print (F e.1).sourceAddress
            ++ " Dst: ".toList ++ Ipv4Address.print (F e.1).destinationAddress
            ++ " Tx Packets: ".toList ++ showNat e.2.txPackets
            ++ " Rx Packets: ".toList ++ showNat e.2.rxPackets
            ++ " Lost Packets: ".toList ++ showNat e.2.lostPackets
            ++ " Delay Sum (s): ".toList ++ P.render (GetSeconds e.2.delaySum)
            ++ " Throughput (bps): ".toList ++ P.render v) ∈
              splitLines (Code.report P F stats)
        ∧ ("Flow ID: ".toList ++ showNat e.1
            ++ " Src: ".toList ++ Ipv4Address.print (F e.1).sourceAddress
            ++ " Dst: ".toList ++ Ipv4Address.print (F e.1).destinationAddress
            ++ " Tx Packets: ".toList ++ showNat e.2.txPackets
            ++ " Rx Packets: ".toList ++ showNat e.2.rxPackets
            ++ " Lost Packets: ".toList ++ showNat e.2.lostPackets
            ++ " Delay Sum (s): ".toList ++ P.render (GetSeconds e.2.delaySum)
            ++ " Throughput (bps): ".toList ++ P.render v) ∈
              splitLines (ThroughputAndLoss.report P F stats)) := by
  have hline : Code.flowLine P (F e.1) e.1 e.2 ∈ splitLines (Code.report P F stats) := by
    rw [splitLines_report]
    exact List.mem_cons_of_mem _ (List.mem_cons_of_mem _
      (List.mem_map.mpr ⟨e, he, rfl⟩))
  have hval := throughput_degenerate e.2 hdeg
  refine ⟨Code.throughput e.2, throughputExpr_ok e.2, throughputExpr_ok e.2, hval, ?_,
    hline, hline⟩
  intro h0 hl hf
  rw [hval]
  have hne : e.2.timeLastRxPacket ≠ e.2.timeFirstTxPacket := by
    rw [hl]
    exact ne_of_lt hf
  have hA : round53 (secondsOf e.2.timeLastRxPacket) = 0 := by
    rw [hl]
    simp [secondsOf, round53_zero]
  have hB : 0 < round53 (secondsOf e.2.timeFirstTxPacket) := by
    apply round53_pos
    unfold secondsOf
    have : (0 : ℚ) < (e.2.timeFirstTxPacket : ℚ) := by exact_mod_cast hf
    positivity
  rw [if_neg hne, hA, if_neg (ne_of_lt hB), if_pos hB]

/-- Witness of C2 on a sample map holding a flow on which nothing was received:
its throughput field is the negative zero. -/
theorem report_degenerate_witness :
    ∃ v : Dbl, Code.throughputExpr emptyFlow = Except.ok (CVal.dbl v) ∧ v = Dbl.nzero := by
  obtain ⟨v, h1, _, _, h4, _⟩ := report_degenerate samplePrinter (fun _ => sampleTuple)
    sampleStats (2, emptyFlow) (by decide) (Or.inr ⟨rfl, rfl⟩)
  exact ⟨v, h1, h4 rfl rfl (by decide)⟩

/-- C3: the line emitted for a flow, in either variant, is the eight labels in
the order of the report, each followed by a space and the corresponding value
of that flow, and each label occurs in the line exactly once. -/
theorem flowLine_labels (P : DoublePrinter) (t : FiveTuple) (id : FlowId) (st : FlowStats) :
    Code.flowLine P t id st =
        "Flow ID:".toList ++ ' ' :: showNat id
          ++ ' ' :: "Src:".toList ++ ' ' :: Ipv4Address.print t.sourceAddress
          ++ ' ' :: "Dst:".toList ++ ' ' :: Ipv4Address.print t.destinationAddress
          ++ ' ' :: "Tx Packets:".toList ++ ' ' :: showNat st.txPackets
          ++ ' ' :: "Rx Packets:".toList ++ ' ' :: showNat st.rxPackets
          ++ ' ' :: "Lost Packets:".toList ++ ' ' :: showNat st.lostPackets
          ++ ' ' :: "Delay Sum (s):".toList ++ ' ' :: P.render (GetSeconds st.delaySum)
          ++ ' ' :: "Throughput (bps):".toList ++ ' ' :: P.render (Code.throughput st)
      ∧ (∀ l ∈ reportLabels, countOcc l (Code.flowLine P t id st) = 1)
      ∧ ThroughputAndLoss.flowLine P t id st = Code.flowLine P t id st := by
  refine ⟨?_, fun l hl => countOcc_label P t id st l hl, rfl⟩
  simp [Code.flowLine]

/-- C7: whatever the run collected, what either variant writes to `std::cout`
after the scheduler stops splits into a blank line, the header
`Flow Monitor Results:`, and then exactly the flow lines, one per collected
flow in the iteration order of the statistics map, whose flow ids are strictly
increasing. -/
theorem report_lines (P : DoublePrinter) (sim : Simulator) :
    (splitLines (Code.main P sim) =
        [] :: "Flow Monitor Results:".toList ::
          (sim.GetFlowStats Code.setup).entries.map
            (fun e => Code.flowLine P (sim.FindFlow Code.setup e.1) e.1 e.2)
      ∧ (splitLines (Code.main P sim)).length =
          (sim.GetFlowStats Code.setup).entries.length + 2
      ∧ ((sim.GetFlowStats Code.setup).entries.map Prod.fst).Pairwise (fun a b => a < b))
    ∧ (splitLines (ThroughputAndLoss.main P sim) =
        [] :: "Flow Monitor Results:".toList ::
          (sim.GetFlowStats ThroughputAndLoss.setup).entries.map
            (fun e => ThroughputAndLoss.flowLine P
              (sim.FindFlow ThroughputAndLoss.setup e.1) e.1 e.2)
      ∧ (splitLines (ThroughputAndLoss.main P sim)).length =
          (sim.GetFlowStats ThroughputAndLoss.setup).entries.length + 2
      ∧ ((sim.GetFlowStats ThroughputAndLoss.setup).entries.map Prod.fst).Pairwise
          (fun a b => a < b)) := by
  have key : ∀ (F : FlowId → FiveTuple) (stats : FlowStatsMap),
      splitLines (Code.report P F stats) =
          [] :: "Flow Monitor Results:".toList ::
            stats.entries.map (fun e => Code.flowLine P (F e.1) e.1 e.2)
        ∧ (splitLines (Code.report P F stats)).length = stats.entries.length + 2
        ∧ (stats.entries.map Prod.fst).Pairwise (fun a b => a < b) := by
    intro F stats
    refine ⟨splitLines_report P F stats, ?_, ?_⟩
    · rw [splitLines_report]
      simp
    · rw [List.pairwise_map]
      exact stats.ordered
  exact ⟨key _ _, key _ _⟩

/-! ## Installed applications and scheduled notices -/

theorem secondsOf_mul (n : ℤ) : secondsOf (n * 1000000000) = n := by
  unfold secondsOf
  push_cast
  field_simp

theorem v1_echoClient_eq (i : ℕ) : Code.echoClient i =
    ⟨NodeRef.ue i, RemoteAddr.remoteHostAddr, 9, 10, 1000000000, 1024,
      (2 + i) * 1000000000, 20000000000⟩ := by
  simp only [Code.echoClient, Code.echoPort, Seconds_two_add, Seconds_one, Seconds_twenty]

theorem v1_reverseClient_eq (i : ℕ) : Code.reverseClient i =
    ⟨NodeRef.remoteHost, RemoteAddr.ueAddr i, 9, 10, 1000000000, 1024,
      (3 + i) * 1000000000, 20000000000⟩ := by
  simp only [Code.reverseClient, Code.echoPort, Seconds_three_add, Seconds_one, Seconds_twenty]

theorem v2_echoClient_eq (i : ℕ) : ThroughputAndLoss.echoClient i =
    ⟨NodeRef.ue i, RemoteAddr.remoteHostAddr, 9, 100, 10000000, 2048,
      (2 + i) * 1000000000, 20000000000⟩ := by
  simp only [ThroughputAndLoss.echoClient, ThroughputAndLoss.echoPort, Seconds_two_add,
    Seconds_hundredth, Seconds_twenty]

theorem v2_reverseClient_eq (i : ℕ) : ThroughputAndLoss.reverseClient i =
    ⟨NodeRef.remoteHost, RemoteAddr.ueAddr i, 9, 100, 10000000, 2048,
      (3 + i) * 1000000000, 20000000000⟩ := by
  simp only [ThroughputAndLoss.reverseClient, ThroughputAndLoss.echoPort, Seconds_three_add,
    Seconds_hundredth, Seconds_twenty]

theorem v1_ueEchoServer_eq (i : ℕ) : Code.ueEchoServer i =
    ⟨NodeRef.ue i, 9, 1000000000, 20000000000⟩ := by
  simp only [Code.ueEchoServer, Code.echoPort, Seconds_one, Seconds_twenty]

theorem v2_ueEchoServer_eq (i : ℕ) : ThroughputAndLoss.ueEchoServer i =
    ⟨NodeRef.ue i, 9, 1000000000, 20000000000⟩ := by
  simp only [ThroughputAndLoss.ueEchoServer, ThroughputAndLoss.echoPort, Seconds_one,
    Seconds_twenty]

theorem v1_serverApps_eq : Code.serverApps =
    [⟨NodeRef.remoteHost, 9, 1000000000, 20000000000⟩] := by
  simp only [Code.serverApps, Code.echoPort, Seconds_one, Seconds_twenty]

theorem v2_serverApps_eq : ThroughputAndLoss.serverApps =
    [⟨NodeRef.remoteHost, 9, 1000000000, 20000000000⟩] := by
  simp only [ThroughputAndLoss.serverApps, ThroughputAndLoss.echoPort, Seconds_one,
    Seconds_twenty]

theorem v1_schedule_eq (i : ℕ) : Code.schedule i =
    ⟨(2 + i) * 1000000000, PrintClientSending (u32 (i + 1))⟩ := by
  simp only [Code.schedule, Seconds_two_add]

theorem v2_schedule_eq (i : ℕ) : ThroughputAndLoss.schedule i =
    ⟨(2 + i) * 1000000000, PrintClientSending (u32 (i + 1))⟩ := by
  simp only [ThroughputAndLoss.schedule, Seconds_two_add]

theorem v1_ueNodes_length : Code.ueNodes.length = 10 := by
  simp [Code.ueNodes]

theorem v2_ueNodes_length : ThroughputAndLoss.ueNodes.length = 10 := by
  simp [ThroughputAndLoss.ueNodes]

theorem getElem?_range_map {α : Type} (f : ℕ → α) (n i : ℕ) (hi : i < n) :
    ((List.range n).map f)[i]? = some (f i) := by
  simp [List.getElem?_map, List.getElem?_range hi]

theorem mem_range_map {α : Type} (f : ℕ → α) (n : ℕ) (x : α) :
    x ∈ (List.range n).map f ↔ ∃ i, i < n ∧ f i = x := by
  simp [List.mem_map]

/-- C4: in both variants, for every UE index `i < 10`: the forward client
installed by pass `i` runs on UE `i`, targets the remote host and starts at
`2.0 + i` s; the reverse client of pass `i` runs on the remote host, targets
UE `i` and starts at `3.0 + i` s; both stop at 20.0 s; the remote host and UE
`i` each carry an installed echo responder running over [1.0 s, 20.0 s]; each
loop installs ten applications; and every installed application starts
strictly before it stops. -/
theorem app_times (i : ℕ) (hi : i < 10) :
    (Code.clientApps[i]? = some (Code.echoClient i)
        ∧ Code.remoteClients[i]? = some (Code.reverseClient i)
        ∧ Code.ueServerApps[i]? = some (Code.ueEchoServer i)
        ∧ Code.serverApps.map (fun a => a.node) = [NodeRef.remoteHost]
        ∧ Code.clientApps.length = 10
        ∧ Code.remoteClients.length = 10
        ∧ Code.ueServerApps.length = 10
        ∧ (Code.echoClient i).node = NodeRef.ue i
        ∧ (Code.echoClient i).remote = RemoteAddr.remoteHostAddr
        ∧ (Code.reverseClient i).node = NodeRef.remoteHost
        ∧ (Code.reverseClient i).remote = RemoteAddr.ueAddr i
        ∧ (Code.ueEchoServer i).node = NodeRef.ue i
        ∧ secondsOf (Code.echoClient i).start = 2 + i
        ∧ secondsOf (Code.reverseClient i).start = 3 + i
        ∧ secondsOf (Code.echoClient i).stop = 20
        ∧ secondsOf (Code.reverseClient i).stop = 20
        ∧ secondsOf (Code.ueEchoServer i).start = 1
        ∧ secondsOf (Code.ueEchoServer i).stop = 20
        ∧ (∀ a ∈ Code.serverApps ++ Code.ueServerApps,
            secondsOf a.start = 1 ∧ secondsOf a.stop = 20 ∧ a.start < a.stop)
        ∧ (∀ c ∈ Code.clientApps ++ Code.remoteClients, c.start < c.stop))
    ∧
    (ThroughputAndLoss.clientApps[i]? = some (ThroughputAndLoss.echoClient i)
        ∧ ThroughputAndLoss.remoteClients[i]? = some (ThroughputAndLoss.reverseClient i)
        ∧ ThroughputAndLoss.ueServerApps[i]? = some (ThroughputAndLoss.ueEchoServer i)
        ∧ ThroughputAndLoss.serverApps.map (fun a => a.node) = [NodeRef.remoteHost]
        ∧ ThroughputAndLoss.clientApps.length = 10
        ∧ ThroughputAndLoss.remoteClients.length = 10
        ∧ ThroughputAndLoss.ueServerApps.length = 10
        ∧ (ThroughputAndLoss.echoClient i).node = NodeRef.ue i
        ∧ (ThroughputAndLoss.echoClient i).remote = RemoteAddr.remoteHostAddr
        ∧ (ThroughputAndLoss.reverseClient i).node = NodeRef.remoteHost
        ∧ (ThroughputAndLoss.reverseClient i).remote = RemoteAddr.ueAddr i
        ∧ (ThroughputAndLoss.ueEchoServer i).node = NodeRef.ue i
        ∧ secondsOf (ThroughputAndLoss.echoClient i).start = 2 + i
        ∧ secondsOf (ThroughputAndLoss.reverseClient i).start = 3 + i
        ∧ secondsOf (ThroughputAndLoss.echoClient i).stop = 20
        ∧ secondsOf (ThroughputAndLoss.reverseClient i).stop = 20
        ∧ secondsOf (ThroughputAndLoss.ueEchoServer i).start = 1
        ∧ secondsOf (ThroughputAndLoss.ueEchoServer i).stop = 20
        ∧ (∀ a ∈ ThroughputAndLoss.serverApps ++ ThroughputAndLoss.ueServerApps,
            secondsOf a.start = 1 ∧ secondsOf a.stop = 20 ∧ a.start < a.stop)
        ∧ (∀ c ∈ ThroughputAndLoss.clientApps ++ ThroughputAndLoss.remoteClients, c.start < c.stop)) := by
  have h20 : secondsOf 20000000000 = 20 := by norm_num [secondsOf]
  have h1 : secondsOf 1000000000 = 1 := by norm_num [secondsOf]
  have h2 : secondsOf ((2 + (i : ℤ)) * 1000000000) = 2 + i := by
    rw [secondsOf_mul]; push_cast; ring
  have h3 : secondsOf ((3 + (i : ℤ)) * 1000000000) = 3 + i := by
    rw [secondsOf_mul]; push_cast; ring
  constructor
  · refine ⟨?_, ?_, ?_, ?_, ?_, ?_, ?_, rfl, rfl, rfl, rfl, rfl, ?_, ?_, ?_, ?_, ?_, ?_, ?_, ?_⟩
    · exact getElem?_range_map _ _ _ (by rw [v1_ueNodes_length]; exact hi)
    · exact getElem?_range_map _ _ _ (by rw [v1_ueNodes_length]; exact hi)
    · exact getElem?_range_map _ _ _ (by rw [v1_ueNodes_length]; exact hi)
    · rw [v1_serverApps_eq]
      rfl
    · simp [Code.clientApps, v1_ueNodes_length]
    · simp [Code.remoteClients, v1_ueNodes_length]
    · simp [Code.ueServerApps, v1_ueNodes_length]
    · rw [v1_echoClient_eq]; exact h2
    · rw [v1_reverseClient_eq]; exact h3
    · rw [v1_echoClient_eq]; exact h20
    · rw [v1_reverseClient_eq]; exact h20
    · rw [v1_ueEchoServer_eq]; exact h1
    · rw [v1_ueEchoServer_eq]; exact h20
    · intro a ha
      rw [v1_serverApps_eq, Code.ueServerApps, List.mem_append, mem_range_map] at ha
      rcases ha with ha | ⟨j, _, rfl⟩
      · rw [List.mem_singleton] at ha
        subst ha
        exact ⟨h1, h20, by decide⟩
      · rw [v1_ueEchoServer_eq]
        exact ⟨h1, h20, show (1000000000 : ℤ) < 20000000000 by decide⟩
    · intro c hc
      rw [Code.clientApps, Code.remoteClients, v1_ueNodes_length, List.mem_append,
        mem_range_map, mem_range_map] at hc
      rcases hc with ⟨j, hj, rfl⟩ | ⟨j, hj, rfl⟩
      · rw [v1_echoClient_eq]
        show (2 + (j : ℤ)) * 1000000000 < 20000000000
        omega
      · rw [v1_reverseClient_eq]
        show (3 + (j : ℤ)) * 1000000000 < 20000000000
        omega
  · refine ⟨?_, ?_, ?_, ?_, ?_, ?_, ?_, rfl, rfl, rfl, rfl, rfl, ?_, ?_, ?_, ?_, ?_, ?_, ?_, ?_⟩
    · exact getElem?_range_map _ _ _ (by rw [v2_ueNodes_length]; exact hi)
    · exact getElem?_range_map _ _ _ (by rw [v2_ueNodes_length]; exact hi)
    · exact getElem?_range_map _ _ _ (by rw [v2_ueNodes_length]; exact hi)
    · rw [v2_serverApps_eq]
      rfl
    · simp [ThroughputAndLoss.clientApps, v2_ueNodes_length]
    · simp [ThroughputAndLoss.remoteClients, v2_ueNodes_length]
    · simp [ThroughputAndLoss.ueServerApps, v2_ueNodes_length]
    · rw [v2_echoClient_eq]; exact h2
    · rw [v2_reverseClient_eq]; exact h3
    · rw [v2_echoClient_eq]; exact h20
    · rw [v2_reverseClient_eq]; exact h20
    · rw [v2_ueEchoServer_eq]; exact h1
    · rw [v2_ueEchoServer_eq]; exact h20
    · intro a ha
      rw [v2_serverApps_eq, ThroughputAndLoss.ueServerApps, List.mem_append, mem_range_map] at ha
      rcases ha with ha | ⟨j, _, rfl⟩
      · rw [List.mem_singleton] at ha
        subst ha
        exact ⟨h1, h20, by decide⟩
      · rw [v2_ueEchoServer_eq]
        exact ⟨h1, h20, show (1000000000 : ℤ) < 20000000000 by decide⟩
    · intro c hc
      rw [ThroughputAndLoss.clientApps, ThroughputAndLoss.remoteClients, v2_ueNodes_length, List.mem_append,
        mem_range_map, mem_range_map] at hc
      rcases hc with ⟨j, hj, rfl⟩ | ⟨j, hj, rfl⟩
      · rw [v2_echoClient_eq]
        show (2 + (j : ℤ)) * 1000000000 < 20000000000
        omega
      · rw [v2_reverseClient_eq]
        show (3 + (j : ℤ)) * 1000000000 < 20000000000
        omega

/-- Witness of C4 at the last UE index. -/
theorem app_times_witness :
    9 < 10 ∧ Code.remoteClients[9]? = some (Code.reverseClient 9)
      ∧ ThroughputAndLoss.remoteClients[9]? = some (ThroughputAndLoss.reverseClient 9) :=
  ⟨by decide, (app_times 9 (by decide)).1.2.1, (app_times 9 (by decide)).2.2.1⟩

/-- C5: every forward and every reverse client of variant 1 has MaxPackets 10,
Interval 1.0 s and PacketSize 1024, every client of variant 2 has MaxPackets
100, Interval 0.01 s and PacketSize 2048, every client targets echo port 9,
and each loop installs one client per UE (ten forward, ten reverse). -/
theorem client_attributes :
    (∀ c ∈ Code.clientApps ++ Code.remoteClients,
        c.maxPackets = 10 ∧ secondsOf c.interval = 1 ∧ c.packetSize = 1024 ∧ c.port = 9)
      ∧ (∀ c ∈ ThroughputAndLoss.clientApps ++ ThroughputAndLoss.remoteClients,
        c.maxPackets = 100 ∧ secondsOf c.interval = 1 / 100 ∧ c.packetSize = 2048 ∧ c.port = 9)
      ∧ Code.clientApps.length = 10 ∧ Code.remoteClients.length = 10
      ∧ ThroughputAndLoss.clientApps.length = 10
      ∧ ThroughputAndLoss.remoteClients.length = 10 := by
  have h1 : secondsOf 1000000000 = 1 := by norm_num [secondsOf]
  have h2 : secondsOf 10000000 = 1 / 100 := by norm_num [secondsOf]
  refine ⟨?_, ?_, ?_, ?_, ?_, ?_⟩
  · intro c hc
    rw [Code.clientApps, Code.remoteClients, v1_ueNodes_length, List.mem_append,
      mem_range_map, mem_range_map] at hc
    rcases hc with ⟨j, _, rfl⟩ | ⟨j, _, rfl⟩
    · rw [v1_echoClient_eq]; exact ⟨rfl, h1, rfl, rfl⟩
    · rw [v1_reverseClient_eq]; exact ⟨rfl, h1, rfl, rfl⟩
  · intro c hc
    rw [ThroughputAndLoss.clientApps, ThroughputAndLoss.remoteClients,
      v2_ueNodes_length, List.mem_append, mem_range_map, mem_range_map] at hc
    rcases hc with ⟨j, _, rfl⟩ | ⟨j, _, rfl⟩
    · rw [v2_echoClient_eq]; exact ⟨rfl, h2, rfl, rfl⟩
    · rw [v2_reverseClient_eq]; exact ⟨rfl, h2, rfl, rfl⟩
  · simp [Code.clientApps, v1_ueNodes_length]
  · simp [Code.remoteClients, v1_ueNodes_length]
  · simp [ThroughputAndLoss.clientApps, v2_ueNodes_length]
  · simp [ThroughputAndLoss.remoteClients, v2_ueNodes_length]

theorem v1_notices_eq : Code.notices =
    (List.range 10).map fun (i : ℕ) =>
      (⟨(2 + i) * 1000000000, PrintClientSending (u32 (i + 1))⟩ : Notice) := by
  rw [Code.notices, v1_ueNodes_length]
  exact List.map_congr_left (fun i _ => v1_schedule_eq i)

theorem v2_notices_eq : ThroughputAndLoss.notices =
    (List.range 10).map fun (i : ℕ) =>
      (⟨(2 + i) * 1000000000, PrintClientSending (u32 (i + 1))⟩ : Notice) := by
  rw [ThroughputAndLoss.notices, v2_ueNodes_length]
  exact List.map_congr_left (fun i _ => v2_schedule_eq i)

/-- C6 as amended: for every UE index `i < 10`, in both variants, exactly one
notice is scheduled at `2.0 + i` s, the start time of forward client `i`; its
text is `Client `, the decimal form of `i + 1`, and ` sending data...` ending in
three full stops; ten notices are scheduled in all. -/
theorem notice_schedule (i : ℕ) (hi : i < 10) :
    Code.notices.filter (fun n => decide (n.time = (Code.echoClient i).start)) =
        [⟨(Code.echoClient i).start,
          "Client ".toList ++ showNat (i + 1) ++ " sending data...".toList⟩]
      ∧ secondsOf (Code.echoClient i).start = 2 + i
      ∧ Code.notices.length = 10
      ∧ ThroughputAndLoss.notices.filter
          (fun n => decide (n.time = (ThroughputAndLoss.echoClient i).start)) =
        [⟨(ThroughputAndLoss.echoClient i).start,
          "Client ".toList ++ showNat (i + 1) ++ " sending data...".toList⟩]
      ∧ secondsOf (ThroughputAndLoss.echoClient i).start = 2 + i
      ∧ ThroughputAndLoss.notices.length = 10 := by
  have h2 : secondsOf ((2 + (i : ℤ)) * 1000000000) = 2 + i := by
    rw [secondsOf_mul]; push_cast; ring
  rw [v1_echoClient_eq, v2_echoClient_eq, v1_notices_eq,
    v2_notices_eq]
  refine ⟨?_, h2, by simp, ?_, h2, by simp⟩
  · interval_cases i <;> decide
  · interval_cases i <;> decide

/-- Witness of C6 as amended, at the first UE index. -/
theorem notice_schedule_witness :
    0 < 10 ∧ Code.notices.filter (fun n => decide (n.time = (Code.echoClient 0).start)) =
      [⟨(Code.echoClient 0).start,
        "Client ".toList ++ showNat (0 + 1) ++ " sending data...".toList⟩] :=
  ⟨by decide, (notice_schedule 0 (by decide)).1⟩

/-- Counterexample to C6 as stated: the notice scheduled for the first UE reads
`Client 1 sending data...`, with three full stops, in both variants; it is not
the text ending in the single ellipsis character. -/
theorem notice_text_counterexample :
    (Code.schedule 0).text = "Client 1 sending data...".toList
      ∧ (Code.schedule 0).text ≠ "Client 1 sending data…".toList
      ∧ (ThroughputAndLoss.schedule 0).text = "Client 1 sending data...".toList
      ∧ (ThroughputAndLoss.schedule 0).text ≠ "Client 1 sending data…".toList := by
  rw [v1_schedule_eq, v2_schedule_eq]
  decide

theorem nominalSend_mk (n : NodeRef) (r : RemoteAddr) (p m : ℕ) (iv : Time) (ps : ℕ)
    (st sp : Time) (k : ℕ) :
    nominalSend ⟨n, r, p, m, iv, ps, st, sp⟩ k = st + k * iv := rfl

theorem secondsOf_lt_iff (t : ℤ) (n : ℤ) : secondsOf t < n ↔ t < n * 1000000000 := by
  unfold secondsOf
  rw [div_lt_iff₀ (by norm_num)]
  exact_mod_cast Iff.rfl

theorem secondsOf_eq_iff (t : ℤ) (n : ℤ) : secondsOf t = n ↔ t = n * 1000000000 := by
  unfold secondsOf
  rw [div_eq_iff (by norm_num)]
  exact_mod_cast Iff.rfl

/-- C10: with the nominal send times `start + k × Interval`, `k < MaxPackets`:
in variant 1 all ten sends of forward client `i` fall strictly before 20.0 s
exactly when `i ≤ 8`, and those of reverse client `i` exactly when `i ≤ 7`; the
tenth send of the last forward client falls at 20.0 s, those of the last two
reverse clients at 20.0 s and 21.0 s; in variant 2 every send of every forward
and reverse client falls strictly before 20.0 s and strictly before the start of
the next client of the same direction. -/
theorem nominal_schedule (i : ℕ) (hi : i < 10) :
    (Code.clientApps[i]? = some (Code.echoClient i)
      ∧ Code.remoteClients[i]? = some (Code.reverseClient i)
      ∧ ThroughputAndLoss.clientApps[i]? = some (ThroughputAndLoss.echoClient i)
      ∧ ThroughputAndLoss.remoteClients[i]? = some (ThroughputAndLoss.reverseClient i))
    ∧ (((∀ k, k < (Code.echoClient i).maxPackets →
          secondsOf (nominalSend (Code.echoClient i) k) < 20) ↔ i ≤ 8)
      ∧ ((∀ k, k < (Code.reverseClient i).maxPackets →
          secondsOf (nominalSend (Code.reverseClient i) k) < 20) ↔ i ≤ 7)
      ∧ secondsOf (nominalSend (Code.echoClient 9) 9) = 20
      ∧ secondsOf (nominalSend (Code.reverseClient 8) 9) = 20
      ∧ secondsOf (nominalSend (Code.reverseClient 9) 9) = 21)
    ∧ (∀ k, k < (ThroughputAndLoss.echoClient i).maxPackets →
        secondsOf (nominalSend (ThroughputAndLoss.echoClient i) k) < 20
          ∧ (i + 1 < 10 → nominalSend (ThroughputAndLoss.echoClient i) k <
              (ThroughputAndLoss.echoClient (i + 1)).start))
    ∧ (∀ k, k < (ThroughputAndLoss.reverseClient i).maxPackets →
        secondsOf (nominalSend (ThroughputAndLoss.reverseClient i) k) < 20
          ∧ (i + 1 < 10 → nominalSend (ThroughputAndLoss.reverseClient i) k <
              (ThroughputAndLoss.reverseClient (i + 1)).start)) := by
  have hinst : Code.clientApps[i]? = some (Code.echoClient i)
      ∧ Code.remoteClients[i]? = some (Code.reverseClient i)
      ∧ ThroughputAndLoss.clientApps[i]? = some (ThroughputAndLoss.echoClient i)
      ∧ ThroughputAndLoss.remoteClients[i]? = some (ThroughputAndLoss.reverseClient i) :=
    ⟨getElem?_range_map _ _ _ (by rw [v1_ueNodes_length]; exact hi),
      getElem?_range_map _ _ _ (by rw [v1_ueNodes_length]; exact hi),
      getElem?_range_map _ _ _ (by rw [v2_ueNodes_length]; exact hi),
      getElem?_range_map _ _ _ (by rw [v2_ueNodes_length]; exact hi)⟩
  refine ⟨hinst, ?_⟩
  simp only [v1_echoClient_eq, v1_reverseClient_eq, v2_echoClient_eq,
    v2_reverseClient_eq, nominalSend_mk]
  refine ⟨⟨?_, ?_, ?_, ?_, ?_⟩, ?_, ?_⟩
  · constructor
    · intro h
      have h9 : (2 + (i : ℤ)) * 1000000000 + ((9 : ℕ) : ℤ) * 1000000000 < 20 * 1000000000 :=
        (secondsOf_lt_iff _ 20).mp (h 9 (by decide))
      push_cast at h9
      omega
    · intro h k hk
      have hk2 : k < 10 := hk
      have hlt : (2 + (i : ℤ)) * 1000000000 + (k : ℤ) * 1000000000 < 20 * 1000000000 := by
        omega
      exact_mod_cast (secondsOf_lt_iff _ 20).mpr hlt
  · constructor
    · intro h
      have h9 : (3 + (i : ℤ)) * 1000000000 + ((9 : ℕ) : ℤ) * 1000000000 < 20 * 1000000000 :=
        (secondsOf_lt_iff _ 20).mp (h 9 (by decide))
      push_cast at h9
      omega
    · intro h k hk
      have hk2 : k < 10 := hk
      have hlt : (3 + (i : ℤ)) * 1000000000 + (k : ℤ) * 1000000000 < 20 * 1000000000 := by
        omega
      exact_mod_cast (secondsOf_lt_iff _ 20).mpr hlt
  · have he : (2 + ((9 : ℕ) : ℤ)) * 1000000000 + ((9 : ℕ) : ℤ) * 1000000000 =
        20 * 1000000000 := by norm_num
    exact_mod_cast (secondsOf_eq_iff _ 20).mpr he
  · have he : (3 + ((8 : ℕ) : ℤ)) * 1000000000 + ((9 : ℕ) : ℤ) * 1000000000 =
        20 * 1000000000 := by norm_num
    exact_mod_cast (secondsOf_eq_iff _ 20).mpr he
  · have he : (3 + ((9 : ℕ) : ℤ)) * 1000000000 + ((9 : ℕ) : ℤ) * 1000000000 =
        21 * 1000000000 := by norm_num
    exact_mod_cast (secondsOf_eq_iff _ 21).mpr he
  · intro k hk
    have hk2 : k < 100 := hk
    have hlt : (2 + (i : ℤ)) * 1000000000 + (k : ℤ) * 10000000 < 20 * 1000000000 := by omega
    have hnx : (2 + (i : ℤ)) * 1000000000 + (k : ℤ) * 10000000 <
        (2 + ((i + 1 : ℕ) : ℤ)) * 1000000000 := by
      push_cast
      omega
    exact ⟨by exact_mod_cast (secondsOf_lt_iff _ 20).mpr hlt, fun _ => hnx⟩
  · intro k hk
    have hk2 : k < 100 := hk
    have hlt : (3 + (i : ℤ)) * 1000000000 + (k : ℤ) * 10000000 < 20 * 1000000000 := by omega
    have hnx : (3 + (i : ℤ)) * 1000000000 + (k : ℤ) * 10000000 <
        (3 + ((i + 1 : ℕ) : ℤ)) * 1000000000 := by
      push_cast
      omega
    exact ⟨by exact_mod_cast (secondsOf_lt_iff _ 20).mpr hlt, fun _ => hnx⟩

/-- Witness of C10 at the last UE index. -/
theorem nominal_schedule_witness :
    9 < 10 ∧ ¬ (∀ k, k < (Code.echoClient 9).maxPackets →
      secondsOf (nominalSend (Code.echoClient 9) k) < 20) :=
  ⟨by decide, fun h => absurd ((nominal_schedule 9 (by decide)).2.1.1.mp h) (by decide)⟩

/-! ## The two drivers as one parameterised scenario -/

theorem specClients_forward (p : ScenarioParams) (first : ℚ) :
    specClients p true first = (List.range 10).map fun (i : ℕ) =>
      (⟨NodeRef.ue i, RemoteAddr.remoteHostAddr, 9, p.maxPackets, Seconds p.intervalSec,
        p.packetSizeBytes, Seconds (first + (i : ℚ)), Seconds 20⟩ : EchoClientApp) := by
  simp [specClients]

theorem specClients_reverse (p : ScenarioParams) (first : ℚ) :
    specClients p false first = (List.range 10).map fun (i : ℕ) =>
      (⟨NodeRef.remoteHost, RemoteAddr.ueAddr i, 9, p.maxPackets, Seconds p.intervalSec,
        p.packetSizeBytes, Seconds (first + (i : ℚ)), Seconds 20⟩ : EchoClientApp) := by
  simp [specClients]

theorem literal_times :
    Seconds 1 = Seconds 1.0 ∧ Seconds 20 = Seconds 20.0 ∧ Seconds 21 = Seconds 21.0
      ∧ (∀ i : ℕ, Seconds (2 + (i : ℚ)) = Seconds (2.0 + (i : ℚ)))
      ∧ (∀ i : ℕ, Seconds (3 + (i : ℚ)) = Seconds (3.0 + (i : ℚ)))
      ∧ MilliSeconds 10 = Seconds 0.01 := by
  refine ⟨by norm_num, by norm_num, by norm_num, fun i => by norm_num, fun i => by norm_num, ?_⟩
  rw [Seconds_hundredth]
  rfl

theorem specScenario_variant1 : specScenario paramsVariant1 = Code.setup := by
  obtain ⟨e1, e20, e21, e2, e3, ed⟩ := literal_times
  simp only [specScenario, paramsVariant1, specClients_forward, specClients_reverse, e1, e20,
    e21, e2, e3, ed]
  rfl

theorem specScenario_variant2 :
    specScenario paramsVariant2 = ThroughputAndLoss.setup := by
  obtain ⟨e1, e20, e21, e2, e3, _⟩ := literal_times
  simp only [specScenario, paramsVariant2, specClients_forward, specClients_reverse, e1, e20,
    e21, e2, e3]
  rfl

theorem specScenario_withoutLoad (p q : ScenarioParams) :
    (specScenario p).withoutLoad = (specScenario q).withoutLoad := by
  simp only [specScenario, Scenario.withoutLoad, specClients_forward, specClients_reverse,
    List.map_map]
  rfl

/-- C9: the parameterised scenario instantiated at (10, 1.0, 1024, no queue)
is exactly what `code.cpp` sets up, and at (100, 0.01, 2048, queue of 10
packets) exactly what `throughput_and_loss.cpp` sets up, the queue being on
both point-to-point devices; outside the offered-load attributes and the queue
the two setups coincide, with 10 UEs, one base station, 256 Kbps, 10 ms,
subnets 1.0.0.0/8 and 7.0.0.0/8, echo port 9 and stop at 21.0 s; and the two
reports are the same function. -/
theorem scenario_refinement :
    specScenario paramsVariant1 = Code.setup
      ∧ specScenario paramsVariant2 = ThroughputAndLoss.setup
      ∧ paramsVariant1 = ⟨10, 1, 1024, none⟩
      ∧ paramsVariant2 = ⟨100, 1 / 100, 2048, some 10⟩
      ∧ Code.setup.rootQueueDiscs = []
      ∧ ThroughputAndLoss.setup.rootQueueDiscs =
          [(NodeRef.pgw, ⟨"ns3::PfifoFastQueueDisc", 10⟩),
           (NodeRef.remoteHost, ⟨"ns3::PfifoFastQueueDisc", 10⟩)]
      ∧ ThroughputAndLoss.setup.withoutLoad = Code.setup.withoutLoad
      ∧ Code.setup.ueNodes.length = 10
      ∧ Code.setup.enbNodes.length = 1
      ∧ Code.setup.dataRateBps = 256000
      ∧ secondsOf Code.setup.linkDelay = 10 / 1000
      ∧ Code.setup.p2pBase = (Ipv4Address.ofOctets 1 0 0 0, Ipv4Address.ofOctets 255 0 0 0)
      ∧ Code.setup.ueRoute =
          (Ipv4Address.ofOctets 7 0 0 0, Ipv4Address.ofOctets 255 0 0 0, 1)
      ∧ Code.setup.echoPort = 9
      ∧ secondsOf Code.setup.stopTime = 21
      ∧ ThroughputAndLoss.report = Code.report := by
  refine ⟨specScenario_variant1, specScenario_variant2, ?_, ?_, rfl, rfl, ?_, rfl, rfl, rfl, ?_,
    rfl, rfl, rfl, ?_, rfl⟩
  · simp only [paramsVariant1, ScenarioParams.mk.injEq]
    norm_num
  · simp only [paramsVariant2, ScenarioParams.mk.injEq]
    norm_num
  · rw [← specScenario_variant1, ← specScenario_variant2]
    exact specScenario_withoutLoad _ _
  · show secondsOf (Seconds 0.01) = 10 / 1000
    rw [Seconds_hundredth]
    norm_num [secondsOf]
  · show secondsOf (Seconds 21.0) = 21
    rw [Seconds_twenty_one]
    norm_num [secondsOf]

end IoT5GSim
